import Mathlib

/-!
Verification development for the provenance-lib archive parser and
provenance-DAG builder.

The repository carries two coexisting implementations of its core:
`provenance_lib/parse.py` (the older one, still the one imported by the
runner; it owns the `ProvDAG` class) and `provenance_lib/archive_parser.py`
(the newer refactor of the parser family).  Where the two differ, both are
embedded side by side, with `py...` / `...Py` naming for the `parse.py`
variant and `ap...` / `...AP` naming for the `archive_parser.py` variant.

Helper modules of the repository that are not part of the packaged sources
(`checksum_validator`, `version_parser`, `util`, `yaml_constructors`) are
modelled from the specification; each such definition carries a doc comment
starting with `Modelled from the spec:`.

Python-level conventions used by the embedding:
* a `pathlib.Path` is its list of parts (`List String`);
* a zip archive is a finite association of paths to already-lexed file
  contents (`FileContent`), so YAML well-formedness is a constructor fact;
* exceptions become `Except PyErr`;
* `warnings.warn` calls are collected into a `List String` that parse
  results return alongside their value.
-/

/-- Identifier of one QIIME 2 result (an opaque string). -/
abbrev UUID := String

/-- A `pathlib.Path`, represented by its parts. -/
abbrev PyPath := List String

/-- The value of one input in an `action.yaml` inputs section: a plain uuid
string, a collection of uuids (the source treats `set`/`list`/`tuple` alike
and indexes into them), or Python `None` (an optional input left unset). -/
inductive PyVal where
  | uuidStr (u : UUID)
  | coll (us : List UUID)
  | pynone
deriving DecidableEq, Repr

/-- The value of one parameter in an `action.yaml` parameters section:
either an ordinary scalar or a `!metadata`-tagged value, which
`yaml_constructors` resolves into a `MetadataInfo` carrying the referenced
artifact uuids and the relative path of the metadata file. -/
inductive ParamVal where
  | scalar (s : String)
  | metadataInfo (input_artifact_uuids : List UUID) (relative_fp : String)
deriving DecidableEq, Repr

/-- The `action:` section of an `action.yaml` document, restricted to the
fields the embedded code paths read (`inputs` and `parameters`; both are
optional lists of single-item mappings in the source). -/
structure ActionDoc where
  inputs : Option (List (String × PyVal))
  parameters : Option (List (String × ParamVal))
deriving DecidableEq, Repr

/-- `_ResultMetadata`: the uuid/type/format triple read from a node's
`metadata.yaml`. -/
structure ResultMd where
  uuid : UUID
  ty : String
  fmt : Option String
deriving DecidableEq, Repr

/-- Lexed content of one archive member.  A `versionFile` is a VERSION file
that satisfies the three-line grammar; `otherFile` stands for any content
the embedded code paths never interpret. -/
inductive FileContent where
  | versionFile (archive_version framework_version : String)
  | metadataYaml (md : ResultMd)
  | actionYaml (doc : ActionDoc)
  | citationsBib (entry_ids : List String)
  | otherFile
deriving DecidableEq, Repr

/-- A zip archive: its filename (used in `archive_parser` error messages)
and its members in listing order. -/
structure Zipfile where
  filename : String
  entries : List (PyPath × FileContent)
deriving DecidableEq, Repr

/-- `zf.namelist()` as paths. -/
def Zipfile.namelist (zf : Zipfile) : List PyPath :=
  zf.entries.map Prod.fst

/-- Reading one member (`zf.read`): the first entry with the given path. -/
def Zipfile.readFile (zf : Zipfile) (p : PyPath) : Option FileContent :=
  (zf.entries.find? (fun e => e.fst = p)).map Prod.snd

/-- Python exceptions raised by the embedded code paths.
`malformedArchive` carries the `(missing file name, node id)` pairs, the
archive root id and (for the `archive_parser` variant) the zip filename, so
that theorems can speak about what the message names; `renderMalformed`
below rebuilds the exact message string of the source. -/
inductive PyErr where
  | malformedArchive (missing : List (String × UUID)) (root : UUID) (zfname : Option String)
  | versionMissing (p : PyPath)
  | versionOutOfSpec (p : PyPath)
  | rootMetadataMissing (root : UUID)
  | keyError (k : String)
  | typeError (what : String)
  | attributeError (attr : String)
deriving DecidableEq, Repr

/-- One line of the `parse_prov` missing-file message:
`f"{fp.name} file for node {node_uuid} misplaced or nonexistent[ in {zf.filename}].\n"`. -/
def missingLine (zfname : Option String) (e : String × UUID) : String :=
  e.fst ++ " file for node " ++ e.snd ++ " misplaced or nonexistent" ++
    (match zfname with
      | some z => " in " ++ z
      | none => "") ++ ".\n"

/-- Concatenation of a list of strings (the `+=` accumulation of
`error_contents` in the source). -/
def strConcat : List String → String
  | [] => ""
  | s :: rest => s ++ strConcat rest

/-- The full `Malformed Archive` message of `ParserV1.parse_prov`
(`parse.py` omits the zip filename, `archive_parser.py` includes it). -/
def renderMalformed (missing : List (String × UUID)) (root : UUID)
    (zfname : Option String) : String :=
  "Malformed Archive: " ++ strConcat (missing.map (missingLine zfname)) ++
    "Archive " ++ root ++ " may be corrupt or provenance may be false."

/-- The `Config` dataclass (the `verbose` field of the `archive_parser`
variant is never read by the embedded code paths). -/
structure PyConfig where
  perform_checksum_validation : Bool
  parse_study_metadata : Bool
deriving DecidableEq, Repr

/-- Modelled from the spec: `checksum_validator.ValidationCode`, the
archive-level validity code.  The spec orders the states from best to worst
as `VALID`, `VALIDATION_OPTOUT`, `PREDATES_CHECKSUMS`, `INVALID` and says a
union takes the minimum (worst case wins), so the underlying numeric values
put `INVALID` lowest. -/
inductive ValidationCode where
  | INVALID
  | VALIDATION_OPTOUT
  | PREDATES_CHECKSUMS
  | VALID
deriving DecidableEq, Repr

/-- Numeric value of a `ValidationCode` (worst = smallest). -/
def ValidationCode.toNat : ValidationCode → Nat
  | .INVALID => 0
  | .VALIDATION_OPTOUT => 1
  | .PREDATES_CHECKSUMS => 2
  | .VALID => 3

/-- Modelled from the spec: the minimum of two validation codes
(worst case wins). -/
def ValidationCode.minCode (a b : ValidationCode) : ValidationCode :=
  if a.toNat ≤ b.toNat then a else b

/-- Modelled from the spec: `checksum_validator.ChecksumDiff` with its
`added` / `removed` / `changed` path sets. -/
structure ChecksumDiff where
  added : Finset String
  removed : Finset String
  changed : Finset String
deriving DecidableEq

/-- A checksum strategy: the `_validate_checksums` classmethod of a parser,
abstracted as a function so that theorems can state that the opt-out branch
never consults it. -/
abbrev Validator := Zipfile → ValidationCode × Option ChecksumDiff

/-- Modelled from the spec: `util.get_root_uuid` resolves the archive root
id from the first path segment found in the zip listing. -/
def getRootUuid (zf : Zipfile) : UUID :=
  match zf.entries with
  | [] => ""
  | (p, _) :: _ => p.headD ""

/-- `ParserV1._get_nonroot_uuid` (`parse.py`; `util.get_nonroot_uuid` is
identical): for `action.yaml` the uuid is `fp.parts[-3]`, otherwise
`fp.parts[-2]`. -/
def getNonrootUuid (fp : PyPath) : UUID :=
  if fp.getLastD "" = "action.yaml" then (fp.reverse.drop 2).headD ""
  else (fp.reverse.drop 1).headD ""

/-- `fp.name`: the final path component. -/
def pathName (fp : PyPath) : String := fp.getLastD ""

/-- The string form of a path (zip member names use `/`). -/
def pathStr (fp : PyPath) : String := String.intercalate "/" fp

/-- Split a character list at every occurrence of a separator (the
splitting underlying `pathlib`'s treatment of `/` in a path string). -/
def splitOnChar (sep : Char) : List Char → List (List Char)
  | [] => [[]]
  | c :: rest =>
    let r := splitOnChar sep rest
    if c = sep then [] :: r
    else
      match r with
      | [] => [[c]]
      | h :: t => (c :: h) :: t

/-- Split a string at every `/`. -/
def splitSlash (s : String) : List String :=
  (splitOnChar '/' s.data).map String.mk

/-- `pathlib.Path(prefix) / name`, where `name` may itself contain `/`
(e.g. `action/action.yaml`). -/
def pathJoin (pfx : PyPath) (name : String) : PyPath :=
  pfx ++ splitSlash name

/-- Substring test on character lists (used to embed Python's `in` on
strings). -/
def subListB : List Char → List Char → Bool
  | s, pat =>
    if pat.isPrefixOf s then true
    else match s with
      | [] => false
      | _ :: t => subListB t pat

/-- Python's `pat in s` on strings. -/
def strContainsB (s pat : String) : Bool := subListB s.data pat.data

/-- `pat` occurs inside `s` (propositional form, used for statements about
error-message contents). -/
def StrOccurs (s pat : String) : Prop := ∃ pre post, s = pre ++ pat ++ post

/-- Modelled from the spec: `version_parser.parse_version` reads a VERSION
file; an absent file fails with `MalformedArchive("VERSION missing")`, a
file not matching the three-line grammar fails with
`MalformedArchive("VERSION out of spec")`, and on success the two version
strings are returned verbatim. -/
def parseVersion (zf : Zipfile) (fp : PyPath) : Except PyErr (String × String) :=
  match zf.readFile fp with
  | none => .error (.versionMissing fp)
  | some (.versionFile av fv) => .ok (av, fv)
  | some _ => .error (.versionOutOfSpec fp)

/-- `ParserV0.expected_files_in_all_nodes = ('metadata.yaml', 'VERSION')`. -/
def parserV0AllNodes : List String := ["metadata.yaml", "VERSION"]

/-- `ParserV1.expected_files_in_all_nodes = ParserV0.… + ('action/action.yaml',)`. -/
def parserV1AllNodes : List String := parserV0AllNodes ++ ["action/action.yaml"]

/-- `ParserV2.expected_files_in_all_nodes = ParserV1.…`. -/
def parserV2AllNodes : List String := parserV1AllNodes

/-- `ParserV3.expected_files_in_all_nodes = ParserV2.…`. -/
def parserV3AllNodes : List String := parserV2AllNodes

/-- `ParserV4.expected_files_in_all_nodes = ParserV3.… + ('citations.bib',)`. -/
def parserV4AllNodes : List String := parserV3AllNodes ++ ["citations.bib"]

/-- `ParserV5.expected_files_in_all_nodes = ParserV4.…`. -/
def parserV5AllNodes : List String := parserV4AllNodes

/-- `expected_files_root_only` per version (`tuple()` through V4,
`('checksums.md5',)` for V5). -/
def parserRootOnly (v : String) : List String :=
  if v = "5" then ["checksums.md5"] else []

/-- `FORMAT_REGISTRY[v].expected_files_in_all_nodes`; `none` embeds the
`KeyError` an unregistered version string raises. -/
def registryAllNodes : String → Option (List String)
  | "0" => some parserV0AllNodes
  | "1" => some parserV1AllNodes
  | "2" => some parserV2AllNodes
  | "3" => some parserV3AllNodes
  | "4" => some parserV4AllNodes
  | "5" => some parserV5AllNodes
  | _ => none

/-- The registered format version strings. -/
def registryVersions : List String := ["0", "1", "2", "3", "4", "5"]

/-- One node of the provenance DAG: the fields `ProvNode.__init__` can set.
`cls` records the Python class of the object (`parse.ProvNode` or
`archive_parser.ProvNode`), which `__eq__` compares.  Fields that the init
loop may leave unset (`_result_md`, `action`, `citations`, `_metadata`) are
options. -/
structure PyProvNode where
  cls : String
  archive_version : String
  framework_version : String
  result_md : Option ResultMd
  action : Option ActionDoc
  citations : Option (List String)
  artifacts_passed_as_md : List (String × UUID)
  metadata : Option (List (String × String))
deriving DecidableEq, Repr

/-- `ProvNode.has_provenance`: `archive_version != '0'`. -/
def PyProvNode.hasProvenance (n : PyProvNode) : Bool :=
  n.archive_version ≠ "0"

/-- `ProvNode.__eq__`: same class and same uuid, nothing else.
(`self.__class__ == other.__class__ and self.uuid == other.uuid`; the uuid
property reads `_result_md.uuid`, and on a node whose `_result_md` was never
set it would raise, so the embedded comparison takes the `""` default for
such nodes just like the hash below.) -/
def provNodeEq (a b : PyProvNode) : Bool :=
  a.cls = b.cls ∧ (a.result_md.map ResultMd.uuid).getD "" = (b.result_md.map ResultMd.uuid).getD ""

/-- `ProvNode.__hash__`: `hash(self.uuid)`, parameterized by the opaque
Python string hash. -/
def provNodeHash (h : String → Int) (n : PyProvNode) : Int :=
  h ((n.result_md.map ResultMd.uuid).getD "")

/-- `ProvNode._get_metadata_from_Action`: walks the action's parameters,
collects `{param_name: relative_fp}` for every `MetadataInfo` value, and
collects `{'artifact_passed_as_metadata': uuid}` entries for every artifact
uuid recorded inside those values (identical in both source files). -/
def getMetadataFromAction (doc : ActionDoc) :
    List (String × String) × List (String × UUID) :=
  match doc.parameters with
  | none => ([], [])
  | some params =>
    params.foldl
      (fun acc p =>
        match p.snd with
        | .scalar _ => acc
        | .metadataInfo us fp =>
          (acc.fst ++ [(p.fst, fp)],
           acc.snd ++ us.map (fun u => ("artifact_passed_as_metadata", u))))
      ([], [])

/-- Expansion of one `action.yaml` input by `archive_parser.ProvNode._parents`:
a plain uuid keeps its role name, a collection value is expanded into
uniquely suffixed role names `name_0`, `name_1`, …, and a `None` value
(unset optional input) is skipped. -/
def expandOneInput (p : String × PyVal) : List (String × UUID) :=
  match p.snd with
  | .uuidStr u => [(p.fst, u)]
  | .coll us => us.enum.map (fun q => (p.fst ++ "_" ++ toString q.fst, q.snd))
  | .pynone => []

/-- `archive_parser.ProvNode._parents`: `None` without provenance, otherwise
the expanded inputs followed by the artifacts passed as metadata. -/
def parentsAP (n : PyProvNode) : Option (List (String × UUID)) :=
  if n.hasProvenance then
    some ((((n.action.map ActionDoc.inputs).getD none).getD []).flatMap expandOneInput
          ++ n.artifacts_passed_as_md)
  else none

/-- `parse.ProvNode._parents`: `None` without provenance, otherwise the raw
inputs list (collections left as single unexpanded entries, `None` values
kept) followed by the artifacts passed as metadata. -/
def parentsPy (n : PyProvNode) : Option (List (String × PyVal)) :=
  if n.hasProvenance then
    some ((((n.action.map ActionDoc.inputs).getD none).getD [])
          ++ n.artifacts_passed_as_md.map (fun p => (p.fst, PyVal.uuidStr p.snd)))
  else none

/-- Node attributes in the networkx DiGraph: `node_data` and
`has_provenance`.  A node that networkx auto-added as a bare edge endpoint
has no attributes; the builder's final loop gives exactly those nodes
`node_data=None, has_provenance=False`, which is the state this structure
records for them directly. -/
structure NodeAttrs where
  node_data : Option PyProvNode
  has_provenance : Bool
deriving DecidableEq, Repr

/-- An `nx.DiGraph`: insertion-ordered node list (keyed by uuid) and edge
list.  Key multiplicity is quotiented away by `nodeKeys`. -/
structure PyDiGraph where
  nodes : List (UUID × NodeAttrs)
  edges : List (UUID × UUID)
deriving DecidableEq, Repr

/-- The set of node ids of a graph. -/
def nodeKeys (g : PyDiGraph) : Finset UUID := (g.nodes.map Prod.fst).toFinset

/-- Attribute lookup for one node id. -/
def hasProvAttr (g : PyDiGraph) (u : UUID) : Option Bool :=
  (g.nodes.find? (fun p => p.fst == u)).map (fun p => p.snd.has_provenance)

/-- `add_edges_from` auto-adds missing endpoints; combined with the
builder's final attribute-fixing loop these get
`node_data=None, has_provenance=False`. -/
def addEndpoint (ns : List (UUID × NodeAttrs)) (u : UUID) : List (UUID × NodeAttrs) :=
  if u ∈ ns.map Prod.fst then ns else ns ++ [(u, ⟨none, false⟩)]

/-- `_parse_metadata` (both source files): resolve each captured metadata
file inside this node's provenance folder and load it; an unreadable file
is a `KeyError` from `zf.open`, and reading `self.uuid` on a node whose
`metadata.yaml` was never parsed is an `AttributeError`.  The loaded
dataframe is opaque to this embedding, so the table value is the path that
was read. -/
def parseMetadataTables (zf : Zipfile) (md : Option ResultMd)
    (fps : List (String × String)) : Except PyErr (List (String × String)) :=
  match md with
  | none => .error (.attributeError "_result_md")
  | some rmd =>
    let root := getRootUuid zf
    let pfx := if root = rmd.uuid then [root, "provenance", "action"]
               else [root, "provenance", "artifacts", rmd.uuid, "action"]
    fps.foldlM
      (fun acc pr =>
        match zf.readFile (pathJoin pfx pr.snd) with
        | some _ => .ok (acc ++ [(pr.fst, pathStr (pathJoin pfx pr.snd))])
        | none => .error (.keyError (pathStr (pathJoin pfx pr.snd))))
      []

/-- Accumulator of the `ProvNode.__init__` dispatch loop. -/
structure NodeInitAcc where
  versions : Option (String × String)
  rmd : Option ResultMd
  act : Option ActionDoc
  cits : Option (List String)
deriving DecidableEq, Repr

/-- One step of the `ProvNode.__init__` dispatch over `fps_for_this_result`:
dispatch on `fp.name`, reading VERSION / metadata.yaml / action.yaml /
citations.bib, ignoring checksums.md5 and anything else. -/
def nodeInitStep (zf : Zipfile) (acc : NodeInitAcc) (fp : PyPath) :
    Except PyErr NodeInitAcc :=
  match pathName fp with
  | "VERSION" => do
      let vv ← parseVersion zf fp
      .ok { acc with versions := some vv }
  | "metadata.yaml" =>
      match zf.readFile fp with
      | some (.metadataYaml md) => .ok { acc with rmd := some md }
      | some _ => .error (.typeError "metadata.yaml is not result metadata")
      | none => .error (.keyError (pathStr fp))
  | "action.yaml" =>
      match zf.readFile fp with
      | some (.actionYaml doc) => .ok { acc with act := some doc }
      | some _ => .error (.typeError "action.yaml is not an action document")
      | none => .error (.keyError (pathStr fp))
  | "citations.bib" =>
      match zf.readFile fp with
      | some (.citationsBib cs) => .ok { acc with cits := some cs }
      | some _ => .error (.typeError "citations.bib is not a bibliography")
      | none => .error (.keyError (pathStr fp))
  | _ => .ok acc

/-- `ProvNode.__init__`: run the dispatch loop, then (reading
`has_provenance`, an `AttributeError` if no VERSION file was handed in)
derive the metadata filepaths and the artifacts passed as metadata from the
action document (an `AttributeError` if the node claims provenance but no
action.yaml was handed in), and parse the study metadata tables when the
config asks for it. -/
def provNodeInit (cls : String) (cfg : PyConfig) (zf : Zipfile)
    (fps : List PyPath) : Except PyErr PyProvNode := do
  let acc ← fps.foldlM (nodeInitStep zf) ⟨none, none, none, none⟩
  match acc.versions with
  | none => .error (.attributeError "_archive_version")
  | some (av, fv) =>
    if av ≠ "0" then
      match acc.act with
      | none => .error (.attributeError "action")
      | some doc =>
        let mdArtifacts := getMetadataFromAction doc
        if cfg.parse_study_metadata then do
          let tables ← parseMetadataTables zf acc.rmd mdArtifacts.fst
          .ok ⟨cls, av, fv, acc.rmd, acc.act, acc.cits, mdArtifacts.snd, some tables⟩
        else
          .ok ⟨cls, av, fv, acc.rmd, acc.act, acc.cits, mdArtifacts.snd, none⟩
    else
      .ok ⟨cls, av, fv, acc.rmd, acc.act, acc.cits, [], none⟩

/-- `_digraph_from_archive_contents` (`archive_parser.py`; `ProvDAG.__init__`
steps 2-4 in `parse.py` are the same construction): nodes from the parsed
contents, one edge per derived parent, and no-provenance attributes for
auto-added parent nodes. -/
def digraphFromContents (contents : List (UUID × PyProvNode)) : PyDiGraph :=
  let nbunch := contents.map
    (fun p => (p.fst, (⟨some p.snd, p.snd.hasProvenance⟩ : NodeAttrs)))
  let ebunch := contents.flatMap
    (fun p =>
      match parentsAP p.snd with
      | some ps => ps.map (fun q => (q.snd, p.fst))
      | none => [])
  let ns := ebunch.foldl (fun ns e => addEndpoint (addEndpoint ns e.fst) e.snd) nbunch
  ⟨ns, ebunch⟩

/-- The `parse.py` variant of the graph build (`ProvDAG.__init__`): the
parent entries are the raw `{name: value}` dicts of `parse.ProvNode._parents`
and `parent_uuid = next(iter(parent.values()))`, so a collection value makes
networkx try to use an unhashable list as a node and a `None` value is a
rejected node — both embedded as errors. -/
def pyDigraphFromContents (contents : List (UUID × PyProvNode)) :
    Except PyErr PyDiGraph := do
  let nbunch := contents.map
    (fun p => (p.fst, (⟨some p.snd, p.snd.hasProvenance⟩ : NodeAttrs)))
  let ebunch ← contents.foldlM
    (fun acc p =>
      match parentsPy p.snd with
      | some ps =>
        ps.foldlM
          (fun a q =>
            match q.snd with
            | .uuidStr u => .ok (a ++ [(u, p.fst)])
            | .coll _ => .error (.typeError "unhashable type: list")
            | .pynone => .error (.typeError "None cannot be a node"))
          acc
      | none => .ok acc)
    ([] : List (UUID × UUID))
  let ns := ebunch.foldl (fun ns e => addEndpoint (addEndpoint ns e.fst) e.snd) nbunch
  .ok ⟨ns, ebunch⟩

/-- `_parse_root_md`: the root `metadata.yaml` must sit at
`<root_uuid>/metadata.yaml` in the zip listing. -/
def parseRootMd (zf : Zipfile) (root : UUID) : Except PyErr ResultMd :=
  let fp : PyPath := [root, "metadata.yaml"]
  if fp ∈ zf.namelist then
    match zf.readFile fp with
    | some (.metadataYaml md) => .ok md
    | some _ => .error (.typeError "metadata.yaml is not result metadata")
    | none => .error (.keyError (pathStr fp))
  else .error (.rootMetadataMissing root)

/-- The `_validate_checksums` of parsers V0-V4: always
`(PREDATES_CHECKSUMS, None)`. -/
def predatesValidator : Validator := fun _ => (.PREDATES_CHECKSUMS, none)

/-- The `UserWarning` text emitted by `ParserV0.parse_prov`. -/
def v0Warning (u : UUID) : String :=
  "Artifact " ++ u ++ " was created prior to provenance tracking. " ++
    "Provenance data will be incomplete."

/-- `ParserV0.parse_prov` (the two source files agree): checksum step (or
opt-out), root uuid, the legacy warning, root metadata, and a single root
node built from `metadata.yaml` and `VERSION`.  The emitted warnings are
returned alongside the parse value. -/
def parseProvV0 (cls : String) (validate : Validator) (cfg : PyConfig)
    (zf : Zipfile) :
    Except PyErr ((List (UUID × PyProvNode) × ResultMd × ValidationCode ×
      Option ChecksumDiff) × List String) := do
  let pvcd := if cfg.perform_checksum_validation then validate zf
              else (.VALIDATION_OPTOUT, none)
  let u := getRootUuid zf
  let ws := [v0Warning u]
  let rmd ← parseRootMd zf u
  let fps := parserV0AllNodes.map (fun f => pathJoin [u] f)
  let node ← provNodeInit cls cfg zf fps
  .ok (([(u, node)], rmd, pvcd.fst, pvcd.snd), ws)

/-- A versioned parser class: its version string and the two expected-file
tuples. -/
structure ParserSpec where
  version_string : String
  expected_files_in_all_nodes : List String
  expected_files_root_only : List String
deriving DecidableEq, Repr

/-- `FORMAT_REGISTRY[v]` as a `ParserSpec`. -/
def formatParserSpec (v : String) : Option ParserSpec :=
  (registryAllNodes v).map (fun l => ⟨v, l, parserRootOnly v⟩)

/-- `'artifacts' not in fp.parts`. -/
def fpIsRoot (fp : PyPath) : Bool := decide ("artifacts" ∉ fp)

/-- The node a provenance path belongs to (the archive root unless the path
runs through `artifacts/<uuid>/`). -/
def fpNodeUuid (root : UUID) (fp : PyPath) : UUID :=
  if fpIsRoot fp then root else getNonrootUuid fp

/-- The node-owning directory prefix for a provenance path. -/
def fpPrefix (root : UUID) (fp : PyPath) : PyPath :=
  if fpIsRoot fp then [root, "provenance"] else fp.take 4

/-- `archive_parser.ParserV1._get_prov_data_fps`: every zip member whose
string form contains `provenance` and one of the expected all-node
filenames, plus the root-only filenames under the root id (appended without
checking that they exist). -/
def apProvDataFps (P : ParserSpec) (zf : Zipfile) : List PyPath :=
  zf.namelist.filter
    (fun p => strContainsB (pathStr p) "provenance" &&
       P.expected_files_in_all_nodes.any (fun e => strContainsB (pathStr p) e))
  ++ P.expected_files_root_only.map (fun f => pathJoin [getRootUuid zf] f)

/-- `parse.ParserV1._get_prov_data_fps`: called with
`expected_files_in_all_nodes + expected_files_root_only` as the substring
filter and with no unconditional append. -/
def pyProvDataFps (P : ParserSpec) (zf : Zipfile) : List PyPath :=
  zf.namelist.filter
    (fun p => strContainsB (pathStr p) "provenance" &&
       (P.expected_files_in_all_nodes ++ P.expected_files_root_only).any
         (fun e => strContainsB (pathStr p) e))

/-- The per-node body of `archive_parser.ParserV1.parse_prov` for one newly
encountered provenance path: read that node's own `VERSION` file, look its
version up in `FORMAT_REGISTRY` to get the expected-file set for that node,
and check each expected path (plus, for the root node, the root-only paths)
against the collected provenance paths, raising `Malformed Archive` naming
every missing file, the node id and the root id.  On success it returns the
`fps_for_this_result` list handed to the `ProvNode` constructor. -/
def apNodeCheck (zf : Zipfile) (pdf : List PyPath) (root : UUID)
    (rootOnly : List String) (fp : PyPath) : Except PyErr (List PyPath) :=
  let u := fpNodeUuid root fp
  let pfx := fpPrefix root fp
  let rootExtras := if fpIsRoot fp then rootOnly.map (fun f => pathJoin [u] f) else []
  do
    let vv ← parseVersion zf (pfx ++ ["VERSION"])
    match registryAllNodes vv.fst with
    | none => .error (.keyError vv.fst)
    | some expFiles =>
      let fpsForThis := rootExtras ++ expFiles.map (pathJoin pfx)
      let missing := fpsForThis.filter (fun q => decide (q ∉ pdf))
      if missing = [] then .ok fpsForThis
      else
        .error (.malformedArchive (missing.map (fun m => (pathName m, u)))
          root (some zf.filename))

/-- Whether a per-node check failed with the `Malformed Archive`
missing-file error. -/
def isMalformedErr : Except PyErr (List PyPath) → Bool
  | .error (.malformedArchive _ _ _) => true
  | _ => false

/-- The per-node loop of `archive_parser.ParserV1.parse_prov`: for the first
path of each node id, run `apNodeCheck` and construct the node from the
checked file list. -/
def apLoop (cfg : PyConfig) (zf : Zipfile) (pdf : List PyPath) (root : UUID)
    (rootOnly : List String) :
    List PyPath → List (UUID × PyProvNode) →
      Except PyErr (List (UUID × PyProvNode))
  | [], contents => .ok contents
  | fp :: rest, contents =>
    let u := fpNodeUuid root fp
    if u ∈ contents.map Prod.fst then apLoop cfg zf pdf root rootOnly rest contents
    else do
      let fpsForThis ← apNodeCheck zf pdf root rootOnly fp
      let node ← provNodeInit "archive_parser.ProvNode" cfg zf fpsForThis
      apLoop cfg zf pdf root rootOnly rest (contents ++ [(u, node)])

/-- The per-node loop of `parse.ParserV1.parse_prov`: the expected-file set
is the dispatched class's own `expected_files_in_all_nodes` (the root
archive's declared version), with no per-node VERSION resolution; the
reassignment of `fps_for_this_result` also drops the root-only paths. -/
def pyLoop (P : ParserSpec) (cfg : PyConfig) (zf : Zipfile)
    (pdf : List PyPath) (root : UUID) :
    List PyPath → List (UUID × PyProvNode) →
      Except PyErr (List (UUID × PyProvNode))
  | [], contents => .ok contents
  | fp :: rest, contents =>
    let u := fpNodeUuid root fp
    if u ∈ contents.map Prod.fst then pyLoop P cfg zf pdf root rest contents
    else
      let pfx := fpPrefix root fp
      let fpsForThis := P.expected_files_in_all_nodes.map (pathJoin pfx)
      let missing := fpsForThis.filter (fun q => decide (q ∉ pdf))
      if missing = [] then do
        let node ← provNodeInit "parse.ProvNode" cfg zf fpsForThis
        pyLoop P cfg zf pdf root rest (contents ++ [(u, node)])
      else
        .error (.malformedArchive (missing.map (fun m => (pathName m, u))) root none)

/-- Parse results of `archive_parser.ParserV1-V5.parse_prov`. -/
structure APResults where
  parsed_artifact_uuids : Finset UUID
  prov_digraph : PyDiGraph
  provenance_is_valid : ValidationCode
  checksum_diff : Option ChecksumDiff
deriving DecidableEq

/-- `archive_parser.ParserV1.parse_prov` (V2-V5 inherit it, differing only
in their `ParserSpec` and checksum strategy): checksum step or opt-out,
provenance path collection, root metadata, the per-node loop, then the
digraph build.  A failure of any step propagates and no result value
exists — the caller's variable is never bound to a partial graph. -/
def apParseProv (P : ParserSpec) (validate : Validator) (cfg : PyConfig)
    (zf : Zipfile) : Except PyErr APResults := do
  let pvcd := if cfg.perform_checksum_validation then validate zf
              else (.VALIDATION_OPTOUT, none)
  let pdf := apProvDataFps P zf
  let root := getRootUuid zf
  let rmd ← parseRootMd zf root
  let contents ← apLoop cfg zf pdf root P.expected_files_root_only pdf []
  .ok ⟨{rmd.uuid}, digraphFromContents contents, pvcd.fst, pvcd.snd⟩

/-- Parse results of `parse.ParserV1-V5.parse_prov`. -/
structure PyResults where
  root_md : ResultMd
  archive_contents : List (UUID × PyProvNode)
  provenance_is_valid : ValidationCode
  checksum_diff : Option ChecksumDiff
deriving DecidableEq

/-- `parse.ParserV1.parse_prov` (V2-V5 inherit it). -/
def pyParseProv (P : ParserSpec) (validate : Validator) (cfg : PyConfig)
    (zf : Zipfile) : Except PyErr PyResults := do
  let pvcd := if cfg.perform_checksum_validation then validate zf
              else (.VALIDATION_OPTOUT, none)
  let pdf := pyProvDataFps P zf
  let root := getRootUuid zf
  let rmd ← parseRootMd zf root
  let contents ← pyLoop P cfg zf pdf root pdf []
  .ok ⟨rmd, contents, pvcd.fst, pvcd.snd⟩

/-- The `ProvDAG` state: the digraph plus `_parsed_artifact_uuids`,
`_provenance_is_valid`, `_checksum_diff` and the `_terminal_uuids` memo. -/
structure ProvDAGs where
  dag : PyDiGraph
  parsed_artifact_uuids : Finset UUID
  provenance_is_valid : ValidationCode
  checksum_diff : Option ChecksumDiff
  terminal_memo : Option (Finset UUID)
deriving DecidableEq

/-- `nx.relabel_nodes(self.dag, mapping, copy=False)` on the embedded
graph: every node key and edge endpoint is pushed through the mapping.
When two distinct keys collide, networkx silently merges them into one node
(the surviving attribute dict depends on set-iteration order; `nodeKeys`
quotients the multiplicity away, which is all the theorems below observe).
The Python `mapping` dict is modelled as a total function, with identity
for ids the caller does not rename. -/
def relabelDag (g : PyDiGraph) (m : UUID → UUID) : PyDiGraph :=
  ⟨g.nodes.map (fun p => (m p.fst, p.snd)),
   g.edges.map (fun e => (m e.fst, m e.snd))⟩

/-- `ProvDAG.relabel_nodes`: relabel the digraph in place, push
`_parsed_artifact_uuids` through the same mapping, and clear the
`_terminal_uuids` memo.  The source contains no collision check of any
kind — the operation is total. -/
def ProvDAGs.relabelNodes (d : ProvDAGs) (m : UUID → UUID) : ProvDAGs :=
  { dag := relabelDag d.dag m,
    parsed_artifact_uuids := d.parsed_artifact_uuids.image m,
    provenance_is_valid := d.provenance_is_valid,
    checksum_diff := d.checksum_diff,
    terminal_memo := none }

/-- `nx.compose` of two digraphs: union of nodes and edges, attributes of
the second graph winning for shared keys. -/
def composeDig (g1 g2 : PyDiGraph) : PyDiGraph :=
  ⟨g1.nodes.filter (fun p => decide (p.fst ∉ g2.nodes.map Prod.fst)) ++ g2.nodes,
   g1.edges ++ g2.edges.filter (fun e => decide (e ∉ g1.edges))⟩

/-- `ProvDAG.union`: `self.dag = nx.compose_all([self.dag] + [d.dag for d in
others])` succeeds, but the next line,
`self._parsed_artifact_uuids |= {other._parsed_artifact_uuids for other in
others}`, builds a set whose elements are Python `set` objects — unhashable —
so any call with a non-empty `others` raises `TypeError` before the uuid
sets are merged or the memo is cleared.  `_provenance_is_valid` and
`_checksum_diff` are never touched (recomputing the least-good code and
merging the diffs is an open TODO in the source). -/
def ProvDAGs.union (d : ProvDAGs) (others : List ProvDAGs) :
    Except PyErr ProvDAGs :=
  let composed := (others.map ProvDAGs.dag).foldl composeDig d.dag
  match others with
  | [] => .ok { d with dag := composed, terminal_memo := none }
  | _ :: _ => .error (.typeError "unhashable type: set")

/-- The in-neighbours of a node: `[edge_pair[0] for edge_pair in
self.dag.in_edges(node)]`. -/
def parentsOfG (g : PyDiGraph) (n : UUID) : List UUID :=
  (g.edges.filter (fun e => e.snd == n)).map Prod.fst

/-- `ProvDAG.get_nested_provenance_nodes`: the recursive predecessor walk,
`nodes = {node}` unioned with the recursive result for every in-neighbour.
The source recursion carries no structural bound, so the embedding adds a
fuel argument; the C6 theorem shows the result is independent of the fuel
once the fuel reaches a topological rank of the start node, which is the
termination of the source recursion on a finite acyclic graph. -/
def nestedFuel (g : PyDiGraph) : Nat → UUID → Finset UUID
  | 0, n => {n}
  | fuel + 1, n =>
    insert n ((parentsOfG g n).foldl (fun acc u => acc ∪ nestedFuel g fuel u) ∅)

/-- `ProvDAG.__init__` end to end for one archive: `FormatHandler` reads the
root VERSION file and dispatches on the registered format version, the
matching `ParserVx.parse_prov` runs (V5 with the real checksum validator,
embedded as the `v5val` parameter; V0-V4 with the predates-checksums stub),
and the node map is assembled into the networkx digraph.  Returns the
constructed DAG together with the warnings emitted. -/
def provDagOfArchive (v5val : Validator) (cfg : PyConfig) (zf : Zipfile) :
    Except PyErr (ProvDAGs × List String) := do
  let vv ← parseVersion zf [getRootUuid zf, "VERSION"]
  if vv.fst = "0" then do
    let r ← parseProvV0 "parse.ProvNode" predatesValidator cfg zf
    let dag ← pyDigraphFromContents r.fst.fst
    .ok ({ dag := dag,
           parsed_artifact_uuids := {r.fst.snd.fst.uuid},
           provenance_is_valid := r.fst.snd.snd.fst,
           checksum_diff := r.fst.snd.snd.snd,
           terminal_memo := none }, r.snd)
  else
    match formatParserSpec vv.fst with
    | none => .error (.keyError vv.fst)
    | some P => do
      let r ← pyParseProv P (if vv.fst = "5" then v5val else predatesValidator) cfg zf
      let dag ← pyDigraphFromContents r.archive_contents
      .ok ({ dag := dag,
             parsed_artifact_uuids := {r.root_md.uuid},
             provenance_is_valid := r.provenance_is_valid,
             checksum_diff := r.checksum_diff,
             terminal_memo := none }, [])

/-- An action record with one single-valued input and one three-element
collection input (the shape named by the parent-derivation property). -/
def c1Action : ActionDoc :=
  ⟨some [("table", .uuidStr "u1"), ("trees", .coll ["x1", "x2", "x3"])], none⟩

/-- A parsed node owning `c1Action`. -/
def c1Node : PyProvNode :=
  ⟨"archive_parser.ProvNode", "5", "2021.4",
   some ⟨"n0de", "FeatureTable[Frequency]", none⟩, some c1Action, none, [], none⟩

/-- Result metadata used by the concrete archives below. -/
def mdOf (u : UUID) : ResultMd := ⟨u, "FeatureTable[Frequency]", some "BIOMV210DirFmt"⟩

/-- A format-5 archive whose root was produced from one ancestor `anc1`
that is itself a format-1 result: `anc1`'s node directory carries its own
`VERSION` saying `1` and has no `citations.bib` (format 1 predates
citations), while the archive root's declared version `5` requires one. -/
def c3Zip : Zipfile :=
  ⟨"mixed.qza",
   [(["r00t", "VERSION"], .versionFile "5" "2021.4"),
    (["r00t", "metadata.yaml"], .metadataYaml (mdOf "r00t")),
    (["r00t", "checksums.md5"], .otherFile),
    (["r00t", "provenance", "VERSION"], .versionFile "5" "2021.4"),
    (["r00t", "provenance", "metadata.yaml"], .metadataYaml (mdOf "r00t")),
    (["r00t", "provenance", "citations.bib"], .citationsBib ["framework"]),
    (["r00t", "provenance", "action", "action.yaml"],
      .actionYaml ⟨some [("table", .uuidStr "anc1")], none⟩),
    (["r00t", "provenance", "artifacts", "anc1", "VERSION"], .versionFile "1" "2.0.6"),
    (["r00t", "provenance", "artifacts", "anc1", "metadata.yaml"], .metadataYaml (mdOf "anc1")),
    (["r00t", "provenance", "artifacts", "anc1", "action", "action.yaml"],
      .actionYaml ⟨none, none⟩)]⟩

/-- The dispatched `ParserV5` class data. -/
def specV5 : ParserSpec := ⟨"5", parserV5AllNodes, parserRootOnly "5"⟩

/-- A checksum validator standing in for `checksum_validator.validate_checksums`
on an intact v5 archive. -/
def validV5Validator : Validator := fun _ => (.VALID, some ⟨∅, ∅, ∅⟩)

/-- The default configuration used for the concrete parses. -/
def cfgDefault : PyConfig := ⟨true, false⟩

/-- `archive_parser.ParserV5.parse_prov` on the mixed-version archive. -/
def c3RunAP : Except PyErr APResults :=
  apParseProv specV5 validV5Validator cfgDefault c3Zip

/-- `parse.ParserV5.parse_prov` on the same mixed-version archive. -/
def c3RunPy : Except PyErr PyResults :=
  pyParseProv specV5 validV5Validator cfgDefault c3Zip

/-- The archive version recorded on one node of an `archive_parser` parse
result. -/
def apNodeVersion (r : Except PyErr APResults) (u : UUID) : Option String :=
  match r with
  | .ok res =>
    ((res.prov_digraph.nodes.find? (fun p => p.fst == u)).bind
      (fun p => p.snd.node_data)).map PyProvNode.archive_version
  | .error _ => none

/-- A format-5 archive in which the ancestor node `anc1` (itself declared
format 5) is missing its required `action/action.yaml`. -/
def c4Zip : Zipfile :=
  ⟨"corrupt.qza",
   [(["ro04", "VERSION"], .versionFile "5" "2021.4"),
    (["ro04", "metadata.yaml"], .metadataYaml (mdOf "ro04")),
    (["ro04", "checksums.md5"], .otherFile),
    (["ro04", "provenance", "VERSION"], .versionFile "5" "2021.4"),
    (["ro04", "provenance", "metadata.yaml"], .metadataYaml (mdOf "ro04")),
    (["ro04", "provenance", "citations.bib"], .citationsBib ["framework"]),
    (["ro04", "provenance", "action", "action.yaml"],
      .actionYaml ⟨some [("table", .uuidStr "anc1")], none⟩),
    (["ro04", "provenance", "artifacts", "anc1", "VERSION"], .versionFile "5" "2021.4"),
    (["ro04", "provenance", "artifacts", "anc1", "metadata.yaml"], .metadataYaml (mdOf "anc1")),
    (["ro04", "provenance", "artifacts", "anc1", "citations.bib"], .citationsBib ["framework"])]⟩

/-- A two-node `ProvDAG` whose node ids `a` and `b` a colliding relabel
mapping will merge. -/
def c5Dag : ProvDAGs :=
  ⟨⟨[("a", ⟨none, false⟩), ("b", ⟨none, false⟩)], [("a", "b")]⟩,
   {"b"}, .VALID, none, none⟩

/-- A relabel mapping sending the two distinct existing ids `a` and `b` to
the same new id `c`. -/
def c5Map : UUID → UUID :=
  fun s => if s = "a" then "c" else if s = "b" then "c" else s

/-- A one-node `ProvDAG` with `VALID` provenance. -/
def c2ValidDag : ProvDAGs :=
  ⟨⟨[("a", ⟨none, false⟩)], []⟩, {"a"}, .VALID, some ⟨∅, ∅, ∅⟩, none⟩

/-- A one-node `ProvDAG` with `INVALID` provenance. -/
def c2InvalidDag : ProvDAGs :=
  ⟨⟨[("b", ⟨none, false⟩)], []⟩, {"b"}, .INVALID, some ⟨∅, ∅, ∅⟩, none⟩

/-- A one-node `ProvDAG` with `VALIDATION_OPTOUT` provenance. -/
def c2OptoutDag : ProvDAGs :=
  ⟨⟨[("c", ⟨none, false⟩)], []⟩, {"c"}, .VALIDATION_OPTOUT, none, none⟩

/-- A diamond-shaped digraph: `a` is an ancestor of `d` along two paths
(`a→b→d` and `a→c→d`), so the predecessor walk from `d` reaches `a`
repeatedly. -/
def c6Dag : PyDiGraph :=
  ⟨[("a", ⟨none, true⟩), ("b", ⟨none, true⟩), ("c", ⟨none, true⟩), ("d", ⟨none, true⟩)],
   [("a", "b"), ("a", "c"), ("b", "d"), ("c", "d")]⟩

/-- A topological rank for `c6Dag`. -/
def c6Rank : UUID → Nat :=
  fun s => if s = "a" then 0 else if s = "d" then 2 else 1

/-- A format-0 archive (no provenance tracked). -/
def c8Zip : Zipfile :=
  ⟨"legacy.qzv",
   [(["v0id", "VERSION"], .versionFile "0" "2.0.5"),
    (["v0id", "metadata.yaml"], .metadataYaml ⟨"v0id", "Visualization", none⟩),
    (["v0id", "data", "index.html"], .otherFile)]⟩

/-- Whether a file content is of the kind its filename announces: VERSION
files carry a registered archive format version, `metadata.yaml` is result
metadata, `action.yaml` an action document, `citations.bib` a bibliography.
Other filenames are unconstrained. -/
def contentMatchesNameB (name : String) (c : FileContent) : Bool :=
  (name ≠ "VERSION" ||
    (match c with
      | .versionFile av _ => (registryAllNodes av).isSome
      | _ => false)) &&
  (name ≠ "metadata.yaml" ||
    (match c with
      | .metadataYaml _ => true
      | _ => false)) &&
  (name ≠ "action.yaml" ||
    (match c with
      | .actionYaml _ => true
      | _ => false)) &&
  (name ≠ "citations.bib" ||
    (match c with
      | .citationsBib _ => true
      | _ => false))

/-- A zip archive whose member contents all match their filenames (the
payloads are syntactically well-formed; what can still be wrong is the
archive's *structure*, e.g. missing members). -/
def WellTypedZip (zf : Zipfile) : Prop :=
  ∀ e ∈ zf.entries, contentMatchesNameB (pathName e.fst) e.snd = true

/-- Whether an `archive_parser` parse produced a result. -/
def apIsOk : Except PyErr APResults → Bool
  | .ok _ => true
  | .error _ => false

/-- Two nodes agreeing on class and uuid but on nothing else. -/
def c10NodeA : PyProvNode :=
  ⟨"archive_parser.ProvNode", "5", "2021.4",
   some ⟨"same-uuid", "FeatureTable[Frequency]", some "BIOMV210DirFmt"⟩,
   some ⟨some [("table", .uuidStr "p1")], none⟩, some ["framework"], [], none⟩

/-- See `c10NodeA`: same class and uuid, every other field different. -/
def c10NodeB : PyProvNode :=
  ⟨"archive_parser.ProvNode", "4", "2019.10",
   some ⟨"same-uuid", "Visualization", none⟩, none, none,
   [("artifact_passed_as_metadata", "m1")], some []⟩

/-- A second checksum validator, nowhere equal to `validV5Validator`. -/
def invalidV5Validator : Validator := fun _ => (.INVALID, none)

/-- A configuration that opts out of checksum validation. -/
def cfgOptout : PyConfig := ⟨false, false⟩

deriving instance DecidableEq for Except

theorem strAppend_assoc (a b c : String) : a ++ b ++ c = a ++ (b ++ c) := by
  apply String.ext
  simp [String.data_append, List.append_assoc]

theorem strAppend_right_nil (a : String) : a ++ "" = a := by
  apply String.ext
  simp [String.data_append]

theorem strOccurs_intro {s pat : String} (pre post : String)
    (h : s = pre ++ pat ++ post) : StrOccurs s pat := ⟨pre, post, h⟩

theorem strOccurs_append_left {s pat : String} (u : String)
    (h : StrOccurs s pat) : StrOccurs (u ++ s) pat := by
  obtain ⟨pre, post, rfl⟩ := h
  refine ⟨u ++ pre, post, ?_⟩
  simp only [strAppend_assoc]

theorem strOccurs_append_right {s pat : String} (u : String)
    (h : StrOccurs s pat) : StrOccurs (s ++ u) pat := by
  obtain ⟨pre, post, rfl⟩ := h
  refine ⟨pre, post ++ u, ?_⟩
  simp only [strAppend_assoc]

theorem card_image_lt_of_collision {s : Finset String} {m : String → String}
    {a b : String} (ha : a ∈ s) (hb : b ∈ s) (hab : a ≠ b) (hm : m a = m b) :
    (s.image m).card < s.card := by
  have himg : s.image m = (s.erase a).image m := by
    apply Finset.Subset.antisymm
    · intro x hx
      obtain ⟨y, hy, rfl⟩ := Finset.mem_image.mp hx
      by_cases hya : y = a
      · subst hya
        exact Finset.mem_image.mpr ⟨b, Finset.mem_erase.mpr ⟨fun h => hab h.symm, hb⟩, hm.symm⟩
      · exact Finset.mem_image.mpr ⟨y, Finset.mem_erase.mpr ⟨hya, hy⟩, rfl⟩
    · exact Finset.image_subset_image (Finset.erase_subset a s)
  calc (s.image m).card = ((s.erase a).image m).card := by rw [himg]
    _ ≤ (s.erase a).card := Finset.card_image_le
    _ < s.card := Finset.card_erase_lt_of_mem ha

theorem expandOneInput_coll_getElem (name : String) (us : List UUID) (i : Nat) :
    (expandOneInput (name, .coll us))[i]? =
      (us[i]?).map (fun x => (name ++ "_" ++ toString i, x)) := by
  simp only [expandOneInput, List.getElem?_map, List.getElem?_enum]
  cases us[i]? <;> rfl

/-- Claim C1 (counterexample): in `parse.ProvNode._parents` — the `_parents`
of the implementation the runner's `ProvDAG` actually uses — an action
record with one single-valued input and one three-element collection input
derives only `2` parent entries, not `1 + 3 = 4`: the collection stays one
unexpanded entry under its plain role name, and no `_0`/`_1`/`_2`-suffixed
role names exist. -/
theorem claim_C1_counterexample :
    parentsPy c1Node =
      some [("table", PyVal.uuidStr "u1"), ("trees", PyVal.coll ["x1", "x2", "x3"])] ∧
    ((parentsPy c1Node).getD []).length = 2 ∧
    ¬ ((parentsPy c1Node).getD []).length = 1 + 3 ∧
    ∀ e ∈ (parentsPy c1Node).getD [],
      e.fst ≠ "trees_0" ∧ e.fst ≠ "trees_1" ∧ e.fst ≠ "trees_2" := by
  decide

/-- Claim C1 (amended): in `archive_parser.ProvNode._parents` the derived
parent list has one entry per single-valued input under its role name, and
each collection-valued input is expanded into one entry per element with
role names suffixed `_0`, `_1`, …; the action with one single-valued input
and one three-element collection input yields exactly `1 + 3 = 4` entries
with the collection role names suffixed `_0`, `_1`, `_2`.  In
`parse.ProvNode._parents` (the older coexisting implementation) the same
action yields 2 entries with the collection unexpanded (see the
counterexample). -/
theorem claim_C1 :
    (∀ name u, expandOneInput (name, .uuidStr u) = [(name, u)]) ∧
    (∀ name us, (expandOneInput (name, .coll us)).length = us.length) ∧
    (∀ (name : String) (us : List UUID) (i : Nat),
      (expandOneInput (name, PyVal.coll us))[i]? =
        (us[i]?).map (fun x => (name ++ "_" ++ toString i, x))) ∧
    parentsAP c1Node =
      some [("table", "u1"), ("trees_0", "x1"), ("trees_1", "x2"), ("trees_2", "x3")] ∧
    ((parentsAP c1Node).getD []).length = 1 + 3 := by
  refine ⟨fun name u => rfl, fun name us => ?_, expandOneInput_coll_getElem, by decide, by decide⟩
  simp [expandOneInput]

/-- Claim C2 (code bug): `ProvDAG.union` never recomputes overall validity
as the minimum `ValidationCode` — the source leaves that as a TODO and, for
any non-empty `others`, raises `TypeError` while building a set of
(unhashable) uuid sets: unioning a `VALID` graph with an `INVALID` (or
`VALIDATION_OPTOUT`) one produces no combined graph at all, and the only
succeeding call (`others = []`) leaves validity untouched, whereas the
claimed minimum would be `INVALID` (resp. `VALIDATION_OPTOUT`). -/
theorem claim_C2_bug :
    ProvDAGs.union c2ValidDag [c2InvalidDag] = .error (.typeError "unhashable type: set") ∧
    ProvDAGs.union c2ValidDag [c2OptoutDag] = .error (.typeError "unhashable type: set") ∧
    ProvDAGs.union c2ValidDag [] = .ok c2ValidDag ∧
    c2ValidDag.provenance_is_valid = .VALID ∧
    c2InvalidDag.provenance_is_valid = .INVALID ∧
    c2OptoutDag.provenance_is_valid = .VALIDATION_OPTOUT ∧
    ValidationCode.minCode .VALID .INVALID = .INVALID ∧
    ValidationCode.minCode .VALID .VALIDATION_OPTOUT = .VALIDATION_OPTOUT := by
  decide

/-- Claim C5 (counterexample): `ProvDAG.relabel_nodes` is a total operation
with no `DuplicateId` failure path — relabeling the two distinct existing
ids `a` and `b` of `c5Dag` with the colliding mapping `c5Map` succeeds and
silently merges them into the single node `c`. -/
theorem claim_C5_counterexample :
    nodeKeys c5Dag.dag = {"a", "b"} ∧
    c5Map "a" = c5Map "b" ∧
    nodeKeys (c5Dag.relabelNodes c5Map).dag = {"c"} ∧
    (nodeKeys (c5Dag.relabelNodes c5Map).dag).card = 1 ∧
    (c5Dag.relabelNodes c5Map).parsed_artifact_uuids = {"c"} := by
  decide

/-- Claim C5 (amended): for every graph and every relabeling mapping that
maps two distinct existing node ids to the same new id, the relabel
operation does not fail — it silently merges the two nodes: the resulting
node-id set is the image of the old one under the mapping and is strictly
smaller. -/
theorem claim_C5 (d : ProvDAGs) (m : UUID → UUID) (a b : UUID)
    (hab : a ≠ b) (ha : a ∈ nodeKeys d.dag) (hb : b ∈ nodeKeys d.dag)
    (hm : m a = m b) :
    nodeKeys (d.relabelNodes m).dag = (nodeKeys d.dag).image m ∧
    (nodeKeys (d.relabelNodes m).dag).card < (nodeKeys d.dag).card := by
  have hkeys : nodeKeys (d.relabelNodes m).dag = (nodeKeys d.dag).image m := by
    ext x
    simp only [nodeKeys, ProvDAGs.relabelNodes, relabelDag, List.mem_toFinset,
      List.mem_map, Finset.mem_image]
    constructor
    · rintro ⟨p, ⟨q, hq, rfl⟩, rfl⟩
      exact ⟨q.fst, ⟨q, hq, rfl⟩, rfl⟩
    · rintro ⟨y, ⟨q, hq, rfl⟩, rfl⟩
      exact ⟨(m q.fst, q.snd), ⟨q, hq, rfl⟩, rfl⟩
  exact ⟨hkeys, hkeys ▸ card_image_lt_of_collision ha hb hab hm⟩

/-- Witness for the amended claim C5 at the concrete graph and mapping. -/
theorem claim_C5_witness :
    (("a" : UUID) ≠ "b" ∧ "a" ∈ nodeKeys c5Dag.dag ∧ "b" ∈ nodeKeys c5Dag.dag ∧
      c5Map "a" = c5Map "b") ∧
    (nodeKeys (c5Dag.relabelNodes c5Map).dag = (nodeKeys c5Dag.dag).image c5Map ∧
      (nodeKeys (c5Dag.relabelNodes c5Map).dag).card < (nodeKeys c5Dag.dag).card) :=
  ⟨⟨by decide, by decide, by decide, by decide⟩,
   claim_C5 c5Dag c5Map "a" "b" (by decide) (by decide) (by decide) (by decide)⟩

/-- Claim C9: for every format version `1 ≤ v ≤ 5`, every filename in
version `v-1`'s "every node" required-file set is also in version `v`'s —
the per-node required-file set never shrinks across versions. -/
theorem claim_C9 (v : Nat) (h1 : 1 ≤ v) (h5 : v ≤ 5) :
    ∃ l l', registryAllNodes (toString (v - 1)) = some l ∧
      registryAllNodes (toString v) = some l' ∧ ∀ f ∈ l, f ∈ l' := by
  interval_cases v
  · exact ⟨_, _, rfl, rfl, by decide⟩
  · exact ⟨_, _, rfl, rfl, by decide⟩
  · exact ⟨_, _, rfl, rfl, by decide⟩
  · exact ⟨_, _, rfl, rfl, by decide⟩
  · exact ⟨_, _, rfl, rfl, by decide⟩

/-- Witness for claim C9 at `v = 5`. -/
theorem claim_C9_witness :
    ((1 : Nat) ≤ 5 ∧ (5 : Nat) ≤ 5) ∧
    ∃ l l', registryAllNodes (toString (5 - 1)) = some l ∧
      registryAllNodes (toString (5 : Nat)) = some l' ∧ ∀ f ∈ l, f ∈ l' :=
  ⟨⟨by decide, by decide⟩, claim_C9 5 (by decide) (by decide)⟩

/-- Claim C10: two `ProvNode` values are equal exactly when they have the
same class and the same uuid, irrespective of every other field, and a
node's hash is the hash of its uuid, so equal nodes have equal hashes. -/
theorem claim_C10 (h : UUID → Int) (a b : PyProvNode) :
    (provNodeEq a b = true ↔
      (a.cls = b.cls ∧
        (a.result_md.map ResultMd.uuid).getD "" =
          (b.result_md.map ResultMd.uuid).getD "")) ∧
    (provNodeEq a b = true → provNodeHash h a = provNodeHash h b) := by
  constructor
  · simp [provNodeEq]
  · intro he
    simp only [provNodeEq, decide_eq_true_eq] at he
    simp [provNodeHash, he.2]

/-- Witness for claim C10: `c10NodeA` and `c10NodeB` agree on class and
uuid only, are equal, and hash alike. -/
theorem claim_C10_witness :
    provNodeEq c10NodeA c10NodeB = true ∧
    provNodeHash (fun s => (s.length : Int)) c10NodeA =
      provNodeHash (fun s => (s.length : Int)) c10NodeB :=
  ⟨by decide,
   (claim_C10 (fun s => (s.length : Int)) c10NodeA c10NodeB).2 (by decide)⟩

theorem foldl_union_mem (l : List UUID) (f : UUID → Finset UUID)
    (init : Finset UUID) (x : UUID) :
    x ∈ l.foldl (fun acc u => acc ∪ f u) init ↔ x ∈ init ∨ ∃ u ∈ l, x ∈ f u := by
  induction l generalizing init with
  | nil => simp
  | cons y ys ih =>
    simp only [List.foldl_cons, ih, Finset.mem_union, List.mem_cons]
    constructor
    · rintro (⟨hx | hx⟩ | ⟨u, hu, hx⟩)
      · exact Or.inl hx
      · exact Or.inr ⟨y, Or.inl rfl, hx⟩
      · exact Or.inr ⟨u, Or.inr hu, hx⟩
    · rintro (hx | ⟨u, hu | hu, hx⟩)
      · exact Or.inl (Or.inl hx)
      · exact Or.inl (Or.inr (hu ▸ hx))
      · exact Or.inr ⟨u, hu, hx⟩

theorem foldl_union_congr (l : List UUID) (f g : UUID → Finset UUID)
    (init : Finset UUID) (h : ∀ u ∈ l, f u = g u) :
    l.foldl (fun acc u => acc ∪ f u) init = l.foldl (fun acc u => acc ∪ g u) init := by
  induction l generalizing init with
  | nil => rfl
  | cons y ys ih =>
    simp only [List.foldl_cons]
    rw [h y (List.mem_cons_self y ys), ih _ (fun u hu => h u (List.mem_cons_of_mem y hu))]

theorem mem_parentsOfG_rank {g : PyDiGraph} {rank : UUID → Nat}
    (hr : ∀ e ∈ g.edges, rank e.fst < rank e.snd) {n p : UUID}
    (hp : p ∈ parentsOfG g n) : rank p < rank n := by
  simp only [parentsOfG, List.mem_map, List.mem_filter] at hp
  obtain ⟨e, ⟨he, heq⟩, rfl⟩ := hp
  have := hr e he
  rwa [beq_iff_eq.mp heq] at this

theorem nestedFuel_rank_zero {g : PyDiGraph} {rank : UUID → Nat}
    (hr : ∀ e ∈ g.edges, rank e.fst < rank e.snd) {n : UUID}
    (hn : rank n = 0) (f : Nat) : nestedFuel g f n = {n} := by
  have hpar : parentsOfG g n = [] := by
    cases hp : parentsOfG g n with
    | nil => rfl
    | cons p ps =>
      have : rank p < rank n := mem_parentsOfG_rank hr (hp ▸ List.mem_cons_self p ps)
      omega
  cases f with
  | zero => rfl
  | succ f' => simp [nestedFuel, hpar]

theorem nestedFuel_congr {g : PyDiGraph} {rank : UUID → Nat}
    (hr : ∀ e ∈ g.edges, rank e.fst < rank e.snd) :
    ∀ (k : Nat) (n : UUID) (f1 f2 : Nat), rank n ≤ k → rank n ≤ f1 → rank n ≤ f2 →
      nestedFuel g f1 n = nestedFuel g f2 n := by
  intro k
  induction k with
  | zero =>
    intro n f1 f2 hk _ _
    rw [nestedFuel_rank_zero hr (Nat.le_zero.mp hk) f1,
      nestedFuel_rank_zero hr (Nat.le_zero.mp hk) f2]
  | succ k ih =>
    intro n f1 f2 hk h1 h2
    by_cases hle : rank n ≤ k
    · exact ih n f1 f2 hle h1 h2
    · have hrn : rank n = k + 1 := by omega
      cases f1 with
      | zero => omega
      | succ f1' =>
        cases f2 with
        | zero => omega
        | succ f2' =>
          simp only [nestedFuel]
          congr 1
          apply foldl_union_congr
          intro u hu
          have hu' : rank u < rank n := mem_parentsOfG_rank hr hu
          exact ih u f1' f2' (by omega) (by omega) (by omega)

theorem nestedFuel_trans {g : PyDiGraph} {rank : UUID → Nat}
    (hr : ∀ e ∈ g.edges, rank e.fst < rank e.snd) :
    ∀ (f : Nat) (n u : UUID) (f2 : Nat), rank n ≤ f → u ∈ nestedFuel g f n →
      rank u ≤ f2 → nestedFuel g f2 u ⊆ nestedFuel g f n := by
  intro f
  induction f with
  | zero =>
    intro n u f2 hf hu hf2
    simp only [nestedFuel, Finset.mem_singleton] at hu
    subst hu
    rw [nestedFuel_congr hr (rank u) u f2 0 le_rfl hf2 hf]
  | succ f' ih =>
    intro n u f2 hf hu hf2
    simp only [nestedFuel, Finset.mem_insert] at hu
    rcases hu with rfl | hu
    · rw [nestedFuel_congr hr (rank u) u f2 (f' + 1) le_rfl hf2 hf]
    · rw [foldl_union_mem] at hu
      rcases hu with hu | ⟨p, hp, hu⟩
      · simp at hu
      · have hpn : rank p < rank n := mem_parentsOfG_rank hr hp
        have hsub : nestedFuel g f2 u ⊆ nestedFuel g f' p :=
          ih p u f2 (by omega) hu hf2
        intro x hx
        simp only [nestedFuel, Finset.mem_insert]
        refine Or.inr ?_
        rw [foldl_union_mem]
        exact Or.inr ⟨p, hp, hsub hx⟩

/-- Claim C6: on a finite acyclic graph (acyclicity witnessed by a
topological rank increasing along each parent→child edge) the recursive
predecessor walk `get_nested_provenance_nodes` terminates — the fuelled
embedding is independent of the fuel from a rank of the start node on,
which is exactly the well-foundedness of the source recursion — and it is
idempotent over ancestors reachable via multiple paths: the closure of any
node already included in the result adds nothing new. -/
theorem claim_C6 (g : PyDiGraph) (rank : UUID → Nat)
    (hr : ∀ e ∈ g.edges, rank e.fst < rank e.snd) (n : UUID) :
    (∀ f1 f2, rank n ≤ f1 → rank n ≤ f2 → nestedFuel g f1 n = nestedFuel g f2 n) ∧
    (∀ f u f2, rank n ≤ f → u ∈ nestedFuel g f n → rank u ≤ f2 →
      nestedFuel g f2 u ⊆ nestedFuel g f n) :=
  ⟨fun f1 f2 h1 h2 => nestedFuel_congr hr (rank n) n f1 f2 le_rfl h1 h2,
   fun f u f2 hf hu hf2 => nestedFuel_trans hr f n u f2 hf hu hf2⟩

/-- Witness for claim C6 on the concrete diamond graph `c6Dag`: the walk
from `d` stabilizes at fuel 2 and the closure of the doubly reached
ancestor `a` is already contained in the result. -/
theorem claim_C6_witness :
    (∀ e ∈ c6Dag.edges, c6Rank e.fst < c6Rank e.snd) ∧
    nestedFuel c6Dag 2 "d" = nestedFuel c6Dag 9 "d" ∧
    nestedFuel c6Dag 2 "a" ⊆ nestedFuel c6Dag 2 "d" :=
  ⟨by decide,
   (claim_C6 c6Dag c6Rank (by decide) "d").1 2 9 (by decide) (by decide),
   (claim_C6 c6Dag c6Rank (by decide) "d").2 2 "a" 2 (by decide) (by decide) (by decide)⟩

/-- Claim C3 (counterexample): `parse.ParserV5.parse_prov` on the
mixed-version archive `c3Zip` checks the ancestor node `anc1` against the
archive root's declared version 5 — whose set requires `citations.bib` —
even though `anc1`'s own VERSION file says `1`, whose set does not; the
parse therefore fails demanding a file that the node's own format version
never had. -/
theorem claim_C3_counterexample :
    c3RunPy = .error (.malformedArchive [("citations.bib", "anc1")] "r00t" none) ∧
    parseVersion c3Zip ["r00t", "provenance", "artifacts", "anc1", "VERSION"] =
      .ok ("1", "2.0.6") ∧
    "citations.bib" ∉ parserV1AllNodes ∧
    specV5.expected_files_in_all_nodes = parserV5AllNodes ∧
    "citations.bib" ∈ parserV5AllNodes := by
  decide

/-- Claim C3 (amended): `archive_parser.ParserV1-V5.parse_prov` resolve the
required per-node file set from each node's own VERSION file: on `c3Zip`
the parse succeeds, recording the ancestor with its own archive version
`1`, although `citations.bib` — required by the root's declared version 5 —
is absent from the ancestor's directory.  The coexisting
`parse.ParserV1-V5.parse_prov` use the root archive's declared version for
every node (see the counterexample). -/
theorem claim_C3 :
    apIsOk c3RunAP = true ∧
    apNodeVersion c3RunAP "anc1" = some "1" ∧
    apNodeVersion c3RunAP "r00t" = some "5" ∧
    registryAllNodes "1" = some parserV1AllNodes ∧
    "citations.bib" ∉ parserV1AllNodes ∧
    "citations.bib" ∈ parserV5AllNodes ∧
    (["r00t", "provenance", "artifacts", "anc1", "citations.bib"] : PyPath) ∉
      c3Zip.namelist := by
  decide

theorem apParseProv_validator_irrel (P : ParserSpec) (v1 v2 : Validator)
    (cfg : PyConfig) (zf : Zipfile) (h : cfg.perform_checksum_validation = false) :
    apParseProv P v1 cfg zf = apParseProv P v2 cfg zf := by
  simp [apParseProv, h]

theorem pyParseProv_validator_irrel (P : ParserSpec) (v1 v2 : Validator)
    (cfg : PyConfig) (zf : Zipfile) (h : cfg.perform_checksum_validation = false) :
    pyParseProv P v1 cfg zf = pyParseProv P v2 cfg zf := by
  simp [pyParseProv, h]

theorem parseProvV0_validator_irrel (cls : String) (v1 v2 : Validator)
    (cfg : PyConfig) (zf : Zipfile) (h : cfg.perform_checksum_validation = false) :
    parseProvV0 cls v1 cfg zf = parseProvV0 cls v2 cfg zf := by
  simp [parseProvV0, h]

theorem apParseProv_optout_valid (P : ParserSpec) (v : Validator)
    (cfg : PyConfig) (zf : Zipfile) (h : cfg.perform_checksum_validation = false)
    (r : APResults) (hr : apParseProv P v cfg zf = .ok r) :
    r.provenance_is_valid = .VALIDATION_OPTOUT ∧ r.checksum_diff = none := by
  simp only [apParseProv, h, Bool.false_eq_true, if_false] at hr
  cases hrm : parseRootMd zf (getRootUuid zf) <;> rw [hrm] at hr <;>
    simp only [bind, Except.bind] at hr
  · exact absurd hr (by simp)
  · cases hl : apLoop cfg zf (apProvDataFps P zf) (getRootUuid zf)
        P.expected_files_root_only (apProvDataFps P zf) [] <;> rw [hl] at hr
    · exact absurd hr (by simp)
    · simp only [Except.ok.injEq] at hr
      subst hr
      exact ⟨rfl, rfl⟩

theorem pyParseProv_optout_valid (P : ParserSpec) (v : Validator)
    (cfg : PyConfig) (zf : Zipfile) (h : cfg.perform_checksum_validation = false)
    (r : PyResults) (hr : pyParseProv P v cfg zf = .ok r) :
    r.provenance_is_valid = .VALIDATION_OPTOUT ∧ r.checksum_diff = none := by
  simp only [pyParseProv, h, Bool.false_eq_true, if_false] at hr
  cases hrm : parseRootMd zf (getRootUuid zf) <;> rw [hrm] at hr <;>
    simp only [bind, Except.bind] at hr
  · exact absurd hr (by simp)
  · cases hl : pyLoop P cfg zf (pyProvDataFps P zf) (getRootUuid zf)
        (pyProvDataFps P zf) [] <;> rw [hl] at hr
    · exact absurd hr (by simp)
    · simp only [Except.ok.injEq] at hr
      subst hr
      exact ⟨rfl, rfl⟩

theorem parseProvV0_optout_valid (cls : String) (v : Validator)
    (cfg : PyConfig) (zf : Zipfile) (h : cfg.perform_checksum_validation = false)
    (res : List (UUID × PyProvNode) × ResultMd × ValidationCode × Option ChecksumDiff)
    (ws : List String) (hr : parseProvV0 cls v cfg zf = .ok (res, ws)) :
    res.snd.snd.fst = .VALIDATION_OPTOUT ∧ res.snd.snd.snd = none := by
  simp only [parseProvV0, h, Bool.false_eq_true, if_false] at hr
  cases hrm : parseRootMd zf (getRootUuid zf) <;> rw [hrm] at hr <;>
    simp only [bind, Except.bind] at hr
  · exact absurd hr (by simp)
  · cases hn : provNodeInit cls cfg zf
        (parserV0AllNodes.map (fun f => pathJoin [getRootUuid zf] f)) <;> rw [hn] at hr
    · exact absurd hr (by simp)
    · simp only [Except.ok.injEq, Prod.mk.injEq] at hr
      rcases hr with ⟨rfl, -⟩
      exact ⟨rfl, rfl⟩

theorem provDagOfArchive_validator_irrel (v1 v2 : Validator) (cfg : PyConfig)
    (zf : Zipfile) (h : cfg.perform_checksum_validation = false) :
    provDagOfArchive v1 cfg zf = provDagOfArchive v2 cfg zf := by
  unfold provDagOfArchive
  cases hv : parseVersion zf [getRootUuid zf, "VERSION"] <;>
    simp only [bind, Except.bind]
  rename_i vv
  by_cases h0 : vv.fst = "0"
  · simp [h0]
  · simp only [h0, if_false]
    cases hps : formatParserSpec vv.fst
    · rfl
    · rename_i P
      dsimp only
      rw [pyParseProv_validator_irrel P
        (if vv.fst = "5" then v1 else predatesValidator)
        (if vv.fst = "5" then v2 else predatesValidator) cfg zf h]

theorem provDagOfArchive_optout_valid (v : Validator) (cfg : PyConfig)
    (zf : Zipfile) (h : cfg.perform_checksum_validation = false)
    (d : ProvDAGs) (ws : List String)
    (hr : provDagOfArchive v cfg zf = .ok (d, ws)) :
    d.provenance_is_valid = .VALIDATION_OPTOUT ∧ d.checksum_diff = none := by
  unfold provDagOfArchive at hr
  cases hv : parseVersion zf [getRootUuid zf, "VERSION"] <;> rw [hv] at hr <;>
    simp only [bind, Except.bind] at hr
  · exact absurd hr (by simp)
  rename_i vv
  by_cases h0 : vv.fst = "0"
  · simp only [h0, if_true] at hr
    cases hv0 : parseProvV0 "parse.ProvNode" predatesValidator cfg zf <;>
        rw [hv0] at hr <;> dsimp only at hr
    · exact absurd hr (by simp)
    rename_i r0
    cases hd : pyDigraphFromContents r0.fst.fst <;> rw [hd] at hr <;>
      dsimp only at hr
    · exact absurd hr (by simp)
    simp only [Except.ok.injEq, Prod.mk.injEq] at hr
    rcases hr with ⟨rfl, -⟩
    exact parseProvV0_optout_valid "parse.ProvNode" predatesValidator cfg zf h
      r0.fst r0.snd (by rw [hv0])
  · simp only [h0, if_false] at hr
    cases hps : formatParserSpec vv.fst <;> rw [hps] at hr <;> dsimp only at hr
    · exact absurd hr (by simp)
    rename_i P
    cases hpy : pyParseProv P (if vv.fst = "5" then v else predatesValidator)
        cfg zf <;> rw [hpy] at hr <;> dsimp only at hr
    · exact absurd hr (by simp)
    rename_i rr
    cases hd : pyDigraphFromContents rr.archive_contents <;> rw [hd] at hr <;>
      dsimp only at hr
    · exact absurd hr (by simp)
    simp only [Except.ok.injEq, Prod.mk.injEq] at hr
    rcases hr with ⟨rfl, -⟩
    exact pyParseProv_optout_valid P _ cfg zf h rr hpy

/-- Claim C7: with `perform_checksum_validation = false`, parsing any
archive of any format version reports validity `(VALIDATION_OPTOUT, None)`,
and the opt-out branch short-circuits before any checksum work: the outcome
of every parse entry point (`ParserV0.parse_prov`, the `ParserV1`-family
`parse_prov` of both source files, and the full `ProvDAG` construction) is
independent of the checksum-validator function, which is never consulted. -/
theorem claim_C7 (P : ParserSpec) (v1 v2 : Validator) (cls : String)
    (cfg : PyConfig) (zf : Zipfile)
    (h : cfg.perform_checksum_validation = false) :
    apParseProv P v1 cfg zf = apParseProv P v2 cfg zf ∧
    pyParseProv P v1 cfg zf = pyParseProv P v2 cfg zf ∧
    parseProvV0 cls v1 cfg zf = parseProvV0 cls v2 cfg zf ∧
    provDagOfArchive v1 cfg zf = provDagOfArchive v2 cfg zf ∧
    (∀ r, apParseProv P v1 cfg zf = .ok r →
      r.provenance_is_valid = .VALIDATION_OPTOUT ∧ r.checksum_diff = none) ∧
    (∀ r, pyParseProv P v1 cfg zf = .ok r →
      r.provenance_is_valid = .VALIDATION_OPTOUT ∧ r.checksum_diff = none) ∧
    (∀ res ws, parseProvV0 cls v1 cfg zf = .ok (res, ws) →
      res.snd.snd.fst = .VALIDATION_OPTOUT ∧ res.snd.snd.snd = none) ∧
    (∀ d ws, provDagOfArchive v1 cfg zf = .ok (d, ws) →
      d.provenance_is_valid = .VALIDATION_OPTOUT ∧ d.checksum_diff = none) :=
  ⟨apParseProv_validator_irrel P v1 v2 cfg zf h,
   pyParseProv_validator_irrel P v1 v2 cfg zf h,
   parseProvV0_validator_irrel cls v1 v2 cfg zf h,
   provDagOfArchive_validator_irrel v1 v2 cfg zf h,
   fun r hr => apParseProv_optout_valid P v1 cfg zf h r hr,
   fun r hr => pyParseProv_optout_valid P v1 cfg zf h r hr,
   fun res ws hr => parseProvV0_optout_valid cls v1 cfg zf h res ws hr,
   fun d ws hr => provDagOfArchive_optout_valid v1 cfg zf h d ws hr⟩

/-- Witness for claim C7: opting out on the concrete v5 archive gives the
same result under two validators that differ everywhere, and the parsed
DAG reports `(VALIDATION_OPTOUT, None)`. -/
theorem claim_C7_witness :
    cfgOptout.perform_checksum_validation = false ∧
    apParseProv specV5 validV5Validator cfgOptout c3Zip =
      apParseProv specV5 invalidV5Validator cfgOptout c3Zip ∧
    (∀ r, apParseProv specV5 validV5Validator cfgOptout c3Zip = .ok r →
      r.provenance_is_valid = .VALIDATION_OPTOUT ∧ r.checksum_diff = none) :=
  ⟨rfl,
   (claim_C7 specV5 validV5Validator invalidV5Validator "parse.ProvNode"
     cfgOptout c3Zip rfl).1,
   (claim_C7 specV5 validV5Validator invalidV5Validator "parse.ProvNode"
     cfgOptout c3Zip rfl).2.2.2.2.1⟩

theorem pathName_pair (a b : String) : pathName [a, b] = b := rfl

/-- Claim C8: parsing any version-0 archive (root VERSION file declaring
`archive: 0`, root result metadata present) yields a graph with exactly one
node — the archive root — with `has_provenance = false` and zero edges, and
emits the user-visible warning that provenance data will be incomplete. -/
theorem claim_C8 (v5val : Validator) (cfg : PyConfig) (zf : Zipfile)
    (fw : String) (md : ResultMd)
    (h1 : zf.readFile [getRootUuid zf, "VERSION"] = some (.versionFile "0" fw))
    (h2 : zf.readFile [getRootUuid zf, "metadata.yaml"] = some (.metadataYaml md))
    (h3 : ([getRootUuid zf, "metadata.yaml"] : PyPath) ∈ zf.namelist) :
    ∃ d, provDagOfArchive v5val cfg zf = .ok (d, [v0Warning (getRootUuid zf)]) ∧
      nodeKeys d.dag = {getRootUuid zf} ∧
      d.dag.edges = [] ∧
      hasProvAttr d.dag (getRootUuid zf) = some false ∧
      StrOccurs (v0Warning (getRootUuid zf)) "Provenance data will be incomplete." := by
  have e1 : (parserV0AllNodes.map (fun f => pathJoin [getRootUuid zf] f)) =
      [[getRootUuid zf, "metadata.yaml"], [getRootUuid zf, "VERSION"]] := rfl
  have hnode : provNodeInit "parse.ProvNode" cfg zf
      (parserV0AllNodes.map (fun f => pathJoin [getRootUuid zf] f)) =
      .ok ⟨"parse.ProvNode", "0", fw, some md, none, none, [], none⟩ := by
    rw [e1]
    simp only [provNodeInit, List.foldlM, nodeInitStep, pathName_pair, parseVersion,
      h1, h2, bind, Except.bind]
    rfl
  have hrmd : parseRootMd zf (getRootUuid zf) = .ok md := by
    simp only [parseRootMd, h3, if_pos, h2]
  have hpv0 : parseProvV0 "parse.ProvNode" predatesValidator cfg zf =
      .ok (([(getRootUuid zf, ⟨"parse.ProvNode", "0", fw, some md, none, none, [], none⟩)],
        md, (if cfg.perform_checksum_validation then predatesValidator zf
              else (.VALIDATION_OPTOUT, none)).fst,
        (if cfg.perform_checksum_validation then predatesValidator zf
              else (.VALIDATION_OPTOUT, none)).snd),
        [v0Warning (getRootUuid zf)]) := by
    simp only [parseProvV0, hrmd, hnode, bind, Except.bind]
  have hdig : pyDigraphFromContents
      [(getRootUuid zf,
        (⟨"parse.ProvNode", "0", fw, some md, none, none, [], none⟩ : PyProvNode))] =
      .ok ⟨[(getRootUuid zf,
        ⟨some ⟨"parse.ProvNode", "0", fw, some md, none, none, [], none⟩, false⟩)], []⟩ := by
    simp only [pyDigraphFromContents, parentsPy, PyProvNode.hasProvenance, List.foldlM,
      bind, Except.bind]
    rfl
  simp only [provDagOfArchive, parseVersion, h1, bind, Except.bind, if_true, hpv0, hdig]
  refine ⟨_, rfl, ?_, rfl, ?_, ?_⟩
  · simp [nodeKeys]
  · simp [hasProvAttr, List.find?]
  · refine ⟨"Artifact " ++ getRootUuid zf ++ " was created prior to provenance tracking. ",
      "", ?_⟩
    rw [strAppend_right_nil]
    rfl

/-- Witness for claim C8 on the concrete version-0 archive `c8Zip`. -/
theorem claim_C8_witness :
    (c8Zip.readFile [getRootUuid c8Zip, "VERSION"] =
        some (.versionFile "0" "2.0.5") ∧
      c8Zip.readFile [getRootUuid c8Zip, "metadata.yaml"] =
        some (.metadataYaml ⟨"v0id", "Visualization", none⟩) ∧
      ([getRootUuid c8Zip, "metadata.yaml"] : PyPath) ∈ c8Zip.namelist) ∧
    ∃ d, provDagOfArchive validV5Validator cfgDefault c8Zip =
        .ok (d, [v0Warning (getRootUuid c8Zip)]) ∧
      nodeKeys d.dag = {getRootUuid c8Zip} ∧
      d.dag.edges = [] ∧
      hasProvAttr d.dag (getRootUuid c8Zip) = some false ∧
      StrOccurs (v0Warning (getRootUuid c8Zip)) "Provenance data will be incomplete." :=
  ⟨⟨by decide, by decide, by decide⟩,
   claim_C8 validV5Validator cfgDefault c8Zip "2.0.5" ⟨"v0id", "Visualization", none⟩
     (by decide) (by decide) (by decide)⟩

theorem strAppend_left_nil (a : String) : "" ++ a = a := by
  apply String.ext
  simp [String.data_append]

theorem strOccurs_trans {s x pat : String} (h1 : StrOccurs s x)
    (h2 : StrOccurs x pat) : StrOccurs s pat := by
  obtain ⟨p1, q1, rfl⟩ := h1
  obtain ⟨p2, q2, rfl⟩ := h2
  exact ⟨p1 ++ p2, q2 ++ q1, by simp only [strAppend_assoc]⟩

theorem strOccurs_refl (s : String) : StrOccurs s s :=
  ⟨"", "", by rw [strAppend_right_nil, strAppend_left_nil]⟩

theorem mem_strConcat_occurs {ls : List String} {x : String} (h : x ∈ ls) :
    StrOccurs (strConcat ls) x := by
  induction ls with
  | nil => cases h
  | cons y ys ih =>
    rcases List.mem_cons.mp h with rfl | h
    · exact strOccurs_append_right _ (strOccurs_refl x)
    · exact strOccurs_append_left y (ih h)

theorem missingLine_occurs_name (zfn : Option String) (f : String) (n : UUID) :
    StrOccurs (missingLine zfn (f, n)) f := by
  refine ⟨"", " file for node " ++ n ++ " misplaced or nonexistent" ++
    (match zfn with | some z => " in " ++ z | none => "") ++ ".\n", ?_⟩
  simp only [missingLine, strAppend_assoc, strAppend_left_nil]

theorem missingLine_occurs_node (zfn : Option String) (f : String) (n : UUID) :
    StrOccurs (missingLine zfn (f, n)) n := by
  refine ⟨f ++ " file for node ", " misplaced or nonexistent" ++
    (match zfn with | some z => " in " ++ z | none => "") ++ ".\n", ?_⟩
  simp only [missingLine, strAppend_assoc]

theorem renderMalformed_occurs_root (missing : List (String × UUID))
    (root : UUID) (zfn : Option String) :
    StrOccurs (renderMalformed missing root zfn) root := by
  refine ⟨"Malformed Archive: " ++ strConcat (missing.map (missingLine zfn)) ++
    "Archive ", " may be corrupt or provenance may be false.", ?_⟩
  simp only [renderMalformed, strAppend_assoc]

theorem renderMalformed_occurs_entry {missing : List (String × UUID)}
    {f : String} {n : UUID} (root : UUID) (zfn : Option String)
    (h : (f, n) ∈ missing) :
    StrOccurs (renderMalformed missing root zfn) f ∧
    StrOccurs (renderMalformed missing root zfn) n := by
  have hline : StrOccurs (renderMalformed missing root zfn) (missingLine zfn (f, n)) := by
    have := mem_strConcat_occurs (List.mem_map_of_mem (missingLine zfn) h)
    unfold renderMalformed
    refine strOccurs_append_right _ (strOccurs_append_right _ (strOccurs_append_right _ ?_))
    exact strOccurs_append_left _ this
  exact ⟨strOccurs_trans hline (missingLine_occurs_name zfn f n),
    strOccurs_trans hline (missingLine_occurs_node zfn f n)⟩

theorem pathName_concat (xs : PyPath) (a : String) : pathName (xs ++ [a]) = a :=
  List.getLastD_concat "" a xs

theorem readFile_isSome_of_mem {zf : Zipfile} {p : PyPath}
    (h : p ∈ zf.namelist) : ∃ c, zf.readFile p = some c := by
  simp only [Zipfile.namelist, List.mem_map] at h
  obtain ⟨e, he, rfl⟩ := h
  have : ∃ x, zf.entries.find? (fun q => decide (q.fst = e.fst)) = some x := by
    rw [← Option.isSome_iff_exists]
    rw [List.find?_isSome]
    exact ⟨e, he, by simp⟩
  obtain ⟨x, hx⟩ := this
  exact ⟨x.snd, by simp [Zipfile.readFile, hx]⟩

theorem readFile_typed {zf : Zipfile} {p : PyPath} {c : FileContent}
    (hwt : WellTypedZip zf) (h : zf.readFile p = some c) :
    contentMatchesNameB (pathName p) c = true := by
  simp only [Zipfile.readFile, Option.map_eq_some'] at h
  obtain ⟨e, he, rfl⟩ := h
  have hmem := List.mem_of_find?_eq_some he
  have hpred := List.find?_some he
  simp only [decide_eq_true_eq] at hpred
  have := hwt e hmem
  rwa [hpred] at this

theorem typed_version {c : FileContent}
    (h : contentMatchesNameB "VERSION" c = true) :
    ∃ av fv, c = .versionFile av fv ∧ (registryAllNodes av).isSome = true := by
  cases c <;> simp_all [contentMatchesNameB]

theorem typed_metadata {c : FileContent}
    (h : contentMatchesNameB "metadata.yaml" c = true) :
    ∃ md, c = .metadataYaml md := by
  cases c <;> simp_all [contentMatchesNameB]

theorem typed_action {c : FileContent}
    (h : contentMatchesNameB "action.yaml" c = true) :
    ∃ doc, c = .actionYaml doc := by
  cases c <;> simp_all [contentMatchesNameB]

theorem typed_citations {c : FileContent}
    (h : contentMatchesNameB "citations.bib" c = true) :
    ∃ cs, c = .citationsBib cs := by
  cases c <;> simp_all [contentMatchesNameB]

theorem registryAllNodes_facts {v : String} {l : List String}
    (h : registryAllNodes v = some l) :
    "VERSION" ∈ l ∧ "metadata.yaml" ∈ l ∧ (v ≠ "0" → "action/action.yaml" ∈ l) ∧
    ∀ e ∈ l, splitSlash e = ["metadata.yaml"] ∨ splitSlash e = ["VERSION"] ∨
      splitSlash e = ["action", "action.yaml"] ∨ splitSlash e = ["citations.bib"] := by
  unfold registryAllNodes at h
  split at h <;> try (injection h with h; subst h; decide)
  exact Option.noConfusion h

theorem nodeInitStep_checksums {zf : Zipfile} {q : PyPath}
    (h : pathName q = "checksums.md5") (a : NodeInitAcc) :
    nodeInitStep zf a q = .ok a := by
  simp [nodeInitStep, h]

theorem nodeInitStep_version {zf : Zipfile} {q : PyPath} {av fv : String}
    (h1 : pathName q = "VERSION") (h2 : zf.readFile q = some (.versionFile av fv))
    (a : NodeInitAcc) :
    nodeInitStep zf a q = .ok { a with versions := some (av, fv) } := by
  simp [nodeInitStep, h1, parseVersion, h2, bind, Except.bind]

theorem nodeInitStep_metadata {zf : Zipfile} {q : PyPath} {m : ResultMd}
    (h1 : pathName q = "metadata.yaml") (h2 : zf.readFile q = some (.metadataYaml m))
    (a : NodeInitAcc) :
    nodeInitStep zf a q = .ok { a with rmd := some m } := by
  simp [nodeInitStep, h1, h2]

theorem nodeInitStep_action {zf : Zipfile} {q : PyPath} {d : ActionDoc}
    (h1 : pathName q = "action.yaml") (h2 : zf.readFile q = some (.actionYaml d))
    (a : NodeInitAcc) :
    nodeInitStep zf a q = .ok { a with act := some d } := by
  simp [nodeInitStep, h1, h2]

theorem nodeInitStep_citations {zf : Zipfile} {q : PyPath} {cs : List String}
    (h1 : pathName q = "citations.bib") (h2 : zf.readFile q = some (.citationsBib cs))
    (a : NodeInitAcc) :
    nodeInitStep zf a q = .ok { a with cits := some cs } := by
  simp [nodeInitStep, h1, h2]

theorem foldlM_nodeInit {zf : Zipfile} (vv : String × String) :
    ∀ (fps : List PyPath) (acc : NodeInitAcc),
    (∀ q ∈ fps,
      (pathName q = "VERSION" ∧
        ∀ a, nodeInitStep zf a q = .ok { a with versions := some vv }) ∨
      (pathName q = "action.yaml" ∧
        ∃ d, ∀ a, nodeInitStep zf a q = .ok { a with act := some d }) ∨
      (pathName q ≠ "VERSION" ∧ pathName q ≠ "action.yaml" ∧
        ∃ a2 : NodeInitAcc → NodeInitAcc,
          (∀ a, nodeInitStep zf a q = .ok (a2 a)) ∧
          ∀ a, (a2 a).versions = a.versions ∧ (a2 a).act = a.act)) →
    ∃ accF, fps.foldlM (nodeInitStep zf) acc = .ok accF ∧
      ((∃ q ∈ fps, pathName q = "VERSION") → accF.versions = some vv) ∧
      (accF.versions = acc.versions ∨ accF.versions = some vv) ∧
      ((∃ q ∈ fps, pathName q = "action.yaml") → accF.act.isSome = true) ∧
      (accF.act = acc.act ∨ accF.act.isSome = true) := by
  intro fps
  induction fps with
  | nil =>
    intro acc _
    exact ⟨acc, rfl, (by rintro ⟨q, hq, -⟩; cases hq), Or.inl rfl,
      (by rintro ⟨q, hq, -⟩; cases hq), Or.inl rfl⟩
  | cons q rest ih =>
    intro acc hstep
    rcases hstep q (List.mem_cons_self q rest) with
      ⟨hn, hs⟩ | ⟨hn, d, hs⟩ | ⟨hn1, hn2, a2, hs, hpres⟩
    · obtain ⟨accF, hfold, hv1, hv2, ha1, ha2⟩ :=
        ih { acc with versions := some vv }
          (fun p hp => hstep p (List.mem_cons_of_mem q hp))
      refine ⟨accF, ?_, fun _ => ?_, Or.inr ?_, ?_, ?_⟩
      · simp only [List.foldlM, hs acc, bind, Except.bind]
        exact hfold
      · rcases hv2 with h | h <;> simp [h]
      · rcases hv2 with h | h <;> simp [h]
      · intro ⟨p, hp, hpn⟩
        rcases List.mem_cons.mp hp with rfl | hp
        · rw [hn] at hpn
          exact absurd hpn (by decide)
        · exact ha1 ⟨p, hp, hpn⟩
      · exact ha2
    · obtain ⟨accF, hfold, hv1, hv2, ha1, ha2⟩ :=
        ih { acc with act := some d }
          (fun p hp => hstep p (List.mem_cons_of_mem q hp))
      refine ⟨accF, ?_, ?_, ?_, fun _ => ?_, Or.inr ?_⟩
      · simp only [List.foldlM, hs acc, bind, Except.bind]
        exact hfold
      · intro ⟨p, hp, hpn⟩
        rcases List.mem_cons.mp hp with rfl | hp
        · rw [hn] at hpn
          exact absurd hpn (by decide)
        · exact hv1 ⟨p, hp, hpn⟩
      · exact hv2
      · rcases ha2 with h | h <;> simp_all
      · rcases ha2 with h | h <;> simp_all
    · obtain ⟨accF, hfold, hv1, hv2, ha1, ha2⟩ :=
        ih (a2 acc) (fun p hp => hstep p (List.mem_cons_of_mem q hp))
      refine ⟨accF, ?_, ?_, ?_, ?_, ?_⟩
      · simp only [List.foldlM, hs acc, bind, Except.bind]
        exact hfold
      · intro ⟨p, hp, hpn⟩
        rcases List.mem_cons.mp hp with rfl | hp
        · exact absurd hpn hn1
        · exact hv1 ⟨p, hp, hpn⟩
      · rcases hv2 with h | h
        · exact Or.inl (h.trans (hpres acc).1)
        · exact Or.inr h
      · intro ⟨p, hp, hpn⟩
        rcases List.mem_cons.mp hp with rfl | hp
        · exact absurd hpn hn2
        · exact ha1 ⟨p, hp, hpn⟩
      · rcases ha2 with h | h
        · exact Or.inl (h.trans (hpres acc).2)
        · exact Or.inr h

theorem parseVersion_ok_readFile {zf : Zipfile} {p : PyPath} {vv : String × String}
    (h : parseVersion zf p = .ok vv) :
    zf.readFile p = some (.versionFile vv.fst vv.snd) := by
  unfold parseVersion at h
  cases hr : zf.readFile p <;> rw [hr] at h
  · cases h
  · rename_i c
    cases c
    case versionFile av fv =>
      injection h with h
      subst h
      rfl
    all_goals cases h

theorem pathName_join_of_single {e : String} (pfx : PyPath)
    (h : splitSlash e = [e]) : pathName (pathJoin pfx e) = e := by
  rw [pathJoin, h]
  exact pathName_concat pfx e

theorem pathJoin_action_assoc (pfx : PyPath) :
    pathJoin pfx "action/action.yaml" = (pfx ++ ["action"]) ++ ["action.yaml"] := by
  rw [show pathJoin pfx "action/action.yaml" = pfx ++ (["action"] ++ ["action.yaml"]) from rfl,
    ← List.append_assoc]

theorem pathName_join_action (pfx : PyPath) :
    pathName (pathJoin pfx "action/action.yaml") = "action.yaml" := by
  rw [pathJoin_action_assoc]
  exact pathName_concat _ _

theorem provNodeInit_ok_of_typed (cfg : PyConfig) (zf : Zipfile) (pfx : PyPath)
    (vv : String × String) (expF : List String) (rootExtras : List PyPath)
    (hwt : WellTypedZip zf) (hcfg : cfg.parse_study_metadata = false)
    (hskip : ∀ q ∈ rootExtras, pathName q = "checksums.md5")
    (hv : zf.readFile (pfx ++ ["VERSION"]) = some (.versionFile vv.fst vv.snd))
    (hreg : registryAllNodes vv.fst = some expF)
    (hmem : ∀ e ∈ expF, pathJoin pfx e ∈ zf.namelist) :
    ∃ node, provNodeInit "archive_parser.ProvNode" cfg zf
      (rootExtras ++ expF.map (pathJoin pfx)) = .ok node := by
  obtain ⟨hVer, hMd, hAct, hShape⟩ := registryAllNodes_facts hreg
  have hstep : ∀ q ∈ rootExtras ++ expF.map (pathJoin pfx),
      (pathName q = "VERSION" ∧
        ∀ a, nodeInitStep zf a q = .ok { a with versions := some vv }) ∨
      (pathName q = "action.yaml" ∧
        ∃ d, ∀ a, nodeInitStep zf a q = .ok { a with act := some d }) ∨
      (pathName q ≠ "VERSION" ∧ pathName q ≠ "action.yaml" ∧
        ∃ a2 : NodeInitAcc → NodeInitAcc,
          (∀ a, nodeInitStep zf a q = .ok (a2 a)) ∧
          ∀ a, (a2 a).versions = a.versions ∧ (a2 a).act = a.act) := by
    intro q hq
    rcases List.mem_append.mp hq with hq | hq
    · have hn := hskip q hq
      exact Or.inr (Or.inr ⟨by rw [hn]; decide, by rw [hn]; decide, id,
        fun a => nodeInitStep_checksums hn a, fun a => ⟨rfl, rfl⟩⟩)
    · obtain ⟨e, he, rfl⟩ := List.mem_map.mp hq
      have hmm := hmem e he
      obtain ⟨c, hc⟩ := readFile_isSome_of_mem hmm
      have hty := readFile_typed hwt hc
      rcases hShape e he with hsh | hsh | hsh | hsh
      · have hn : pathName (pathJoin pfx e) = "metadata.yaml" := by
          rw [pathJoin, hsh]
          exact pathName_concat _ _
        rw [hn] at hty
        obtain ⟨m, rfl⟩ := typed_metadata hty
        exact Or.inr (Or.inr ⟨by rw [hn]; decide, by rw [hn]; decide,
          fun a => { a with rmd := some m },
          fun a => nodeInitStep_metadata hn hc a, fun a => ⟨rfl, rfl⟩⟩)
      · have hq1 : pathJoin pfx e = pfx ++ ["VERSION"] := by rw [pathJoin, hsh]
        have hn : pathName (pathJoin pfx e) = "VERSION" := by
          rw [hq1]
          exact pathName_concat _ _
        exact Or.inl ⟨hn, fun a => nodeInitStep_version hn (by rw [hq1]; exact hv) a⟩
      · have hn : pathName (pathJoin pfx e) = "action.yaml" := by
          rw [pathJoin, hsh]
          exact pathName_join_action pfx
        rw [hn] at hty
        obtain ⟨d, rfl⟩ := typed_action hty
        exact Or.inr (Or.inl ⟨hn, d, fun a => nodeInitStep_action hn hc a⟩)
      · have hn : pathName (pathJoin pfx e) = "citations.bib" := by
          rw [pathJoin, hsh]
          exact pathName_concat _ _
        rw [hn] at hty
        obtain ⟨cs, rfl⟩ := typed_citations hty
        exact Or.inr (Or.inr ⟨by rw [hn]; decide, by rw [hn]; decide,
          fun a => { a with cits := some cs },
          fun a => nodeInitStep_citations hn hc a, fun a => ⟨rfl, rfl⟩⟩)
  obtain ⟨accF, hfold, hva, hvb, haa, hab⟩ :=
    foldlM_nodeInit vv (rootExtras ++ expF.map (pathJoin pfx))
      ⟨none, none, none, none⟩ hstep
  have hversome : accF.versions = some vv := by
    refine hva ⟨pathJoin pfx "VERSION", ?_, ?_⟩
    · exact List.mem_append.mpr (Or.inr (List.mem_map.mpr ⟨"VERSION", hVer, rfl⟩))
    · exact pathName_concat pfx "VERSION"
  unfold provNodeInit
  simp only [bind, Except.bind, hfold, hversome]
  by_cases h0 : vv.fst = "0"
  · simp only [h0]
    exact ⟨_, rfl⟩
  · have hact : accF.act.isSome = true := by
      refine haa ⟨pathJoin pfx "action/action.yaml", ?_, ?_⟩
      · exact List.mem_append.mpr (Or.inr (List.mem_map.mpr ⟨"action/action.yaml", hAct h0, rfl⟩))
      · exact pathName_join_action pfx
    obtain ⟨doc, hdoc⟩ := Option.isSome_iff_exists.mp hact
    simp only [hdoc, h0, hcfg]
    refine ⟨⟨"archive_parser.ProvNode", vv.fst, vv.snd, accF.rmd, some doc,
      accF.cits, (getMetadataFromAction doc).snd, none⟩, ?_⟩
    split
    · rfl
    · rename_i hc
      exact absurd h0 hc

theorem mem_apProvDataFps_cases {P : ParserSpec} {zf : Zipfile} {q : PyPath}
    (h : q ∈ apProvDataFps P zf) :
    q ∈ zf.namelist ∨
    ∃ f ∈ P.expected_files_root_only, q = pathJoin [getRootUuid zf] f := by
  rcases List.mem_append.mp h with h | h
  · exact Or.inl (List.mem_filter.mp h).1
  · obtain ⟨f, hf, rfl⟩ := List.mem_map.mp h
    exact Or.inr ⟨f, hf, rfl⟩

theorem rootOnly_mem_apProvDataFps {P : ParserSpec} {zf : Zipfile} {f : String}
    (hf : f ∈ P.expected_files_root_only) :
    pathJoin [getRootUuid zf] f ∈ apProvDataFps P zf :=
  List.mem_append.mpr (Or.inr (List.mem_map.mpr ⟨f, hf, rfl⟩))

theorem parseRootMd_ok {zf : Zipfile} (hwt : WellTypedZip zf)
    (hroot : ([getRootUuid zf, "metadata.yaml"] : PyPath) ∈ zf.namelist) :
    ∃ md, parseRootMd zf (getRootUuid zf) = .ok md := by
  obtain ⟨c, hc⟩ := readFile_isSome_of_mem hroot
  have hty := readFile_typed hwt hc
  rw [pathName_pair] at hty
  obtain ⟨md, rfl⟩ := typed_metadata hty
  exact ⟨md, by simp [parseRootMd, hroot, hc]⟩

theorem apNodeCheck_version_ok {zf : Zipfile} {root : UUID} {fp : PyPath}
    (hwt : WellTypedZip zf)
    (hver : ∃ c, zf.readFile (fpPrefix root fp ++ ["VERSION"]) = some c) :
    ∃ vv expF, parseVersion zf (fpPrefix root fp ++ ["VERSION"]) = .ok vv ∧
      registryAllNodes vv.fst = some expF := by
  obtain ⟨c, hc⟩ := hver
  have hty := readFile_typed hwt hc
  rw [pathName_concat] at hty
  obtain ⟨av, fv, rfl, hreg⟩ := typed_version hty
  obtain ⟨expF, hexp⟩ := Option.isSome_iff_exists.mp hreg
  exact ⟨(av, fv), expF, by simp [parseVersion, hc], hexp⟩

theorem apNodeCheck_error_char {zf : Zipfile} {pdf : List PyPath} {root : UUID}
    {ro : List String} {fp : PyPath} {err : PyErr}
    (hwt : WellTypedZip zf)
    (hver : ∃ c, zf.readFile (fpPrefix root fp ++ ["VERSION"]) = some c)
    (hc : apNodeCheck zf pdf root ro fp = .error err) :
    ∃ missing vv expF,
      parseVersion zf (fpPrefix root fp ++ ["VERSION"]) = .ok vv ∧
      registryAllNodes vv.fst = some expF ∧
      missing = ((if fpIsRoot fp then
          ro.map (fun f => pathJoin [fpNodeUuid root fp] f) else []) ++
        expF.map (pathJoin (fpPrefix root fp))).filter (fun q => decide (q ∉ pdf)) ∧
      missing ≠ [] ∧
      err = .malformedArchive (missing.map (fun m => (pathName m, fpNodeUuid root fp)))
        root (some zf.filename) := by
  obtain ⟨vv, expF, hpv, hreg⟩ := apNodeCheck_version_ok hwt hver
  unfold apNodeCheck at hc
  simp only [hpv, hreg, bind, Except.bind] at hc
  by_cases hisr : fpIsRoot fp = true
  · simp only [hisr, if_true] at hc ⊢
    split at hc
    · cases hc
    · rename_i hne
      injection hc with hc
      exact ⟨_, vv, expF, hpv, hreg, rfl, hne, hc.symm⟩
  · simp only [if_neg hisr] at hc ⊢
    split at hc
    · cases hc
    · rename_i hne
      injection hc with hc
      exact ⟨_, vv, expF, hpv, hreg, rfl, hne, hc.symm⟩

theorem apNodeCheck_ok_char {zf : Zipfile} {pdf : List PyPath} {root : UUID}
    {ro : List String} {fp : PyPath} {l : List PyPath}
    (hwt : WellTypedZip zf)
    (hver : ∃ c, zf.readFile (fpPrefix root fp ++ ["VERSION"]) = some c)
    (hc : apNodeCheck zf pdf root ro fp = .ok l) :
    ∃ vv expF, parseVersion zf (fpPrefix root fp ++ ["VERSION"]) = .ok vv ∧
      registryAllNodes vv.fst = some expF ∧
      l = (if fpIsRoot fp then
          ro.map (fun f => pathJoin [fpNodeUuid root fp] f) else []) ++
        expF.map (pathJoin (fpPrefix root fp)) ∧
      ∀ q ∈ l, q ∈ pdf := by
  obtain ⟨vv, expF, hpv, hreg⟩ := apNodeCheck_version_ok hwt hver
  unfold apNodeCheck at hc
  simp only [hpv, hreg, bind, Except.bind] at hc
  have main : ∀ (re : List PyPath),
      (if (re ++ expF.map (pathJoin (fpPrefix root fp))).filter
          (fun q => decide (q ∉ pdf)) = [] then
        Except.ok (re ++ expF.map (pathJoin (fpPrefix root fp)))
      else Except.error (PyErr.malformedArchive
        (((re ++ expF.map (pathJoin (fpPrefix root fp))).filter
          (fun q => decide (q ∉ pdf))).map
            (fun m => (pathName m, fpNodeUuid root fp)))
        root (some zf.filename))) = .ok l →
      l = re ++ expF.map (pathJoin (fpPrefix root fp)) ∧ ∀ q ∈ l, q ∈ pdf := by
    intro re hre
    split at hre
    · rename_i hnil
      injection hre with hre
      subst hre
      refine ⟨rfl, ?_⟩
      intro q hq
      by_contra hnq
      have hmemf : q ∈ (re ++ expF.map (pathJoin (fpPrefix root fp))).filter
          (fun q => decide (q ∉ pdf)) := by
        rw [List.mem_filter]
        exact ⟨hq, by simpa using hnq⟩
      rw [hnil] at hmemf
      cases hmemf
    · cases hre
  by_cases hisr : fpIsRoot fp = true
  · simp only [hisr, if_true] at hc ⊢
    obtain ⟨h1, h2⟩ := main _ hc
    exact ⟨vv, expF, hpv, hreg, h1, h2⟩
  · simp only [if_neg hisr] at hc ⊢
    obtain ⟨h1, h2⟩ := main _ hc
    exact ⟨vv, expF, hpv, hreg, h1, h2⟩

theorem apLoop_error_of_broken
    (P : ParserSpec) (cfg : PyConfig) (zf : Zipfile)
    (hwt : WellTypedZip zf) (hcfg : cfg.parse_study_metadata = false)
    (hro : ∀ f ∈ P.expected_files_root_only, f = "checksums.md5")
    (hver : ∀ fp ∈ apProvDataFps P zf,
      ∃ c, zf.readFile (fpPrefix (getRootUuid zf) fp ++ ["VERSION"]) = some c) :
    ∀ (fps : List PyPath) (contents : List (UUID × PyProvNode)),
    (∀ fp ∈ fps, fp ∈ apProvDataFps P zf) →
    (∀ u ∈ contents.map Prod.fst, ∃ fp2 ∈ apProvDataFps P zf,
      fpNodeUuid (getRootUuid zf) fp2 = u ∧
      ∃ l, apNodeCheck zf (apProvDataFps P zf) (getRootUuid zf)
        P.expected_files_root_only fp2 = .ok l) →
    (∃ fp ∈ fps, ∀ fp2 ∈ apProvDataFps P zf,
      fpNodeUuid (getRootUuid zf) fp2 = fpNodeUuid (getRootUuid zf) fp →
      isMalformedErr (apNodeCheck zf (apProvDataFps P zf) (getRootUuid zf)
        P.expected_files_root_only fp2) = true) →
    ∃ fp ∈ apProvDataFps P zf, ∃ err,
      apNodeCheck zf (apProvDataFps P zf) (getRootUuid zf)
        P.expected_files_root_only fp = .error err ∧
      isMalformedErr (apNodeCheck zf (apProvDataFps P zf) (getRootUuid zf)
        P.expected_files_root_only fp) = true ∧
      apLoop cfg zf (apProvDataFps P zf) (getRootUuid zf)
        P.expected_files_root_only fps contents = .error err := by
  intro fps
  induction fps with
  | nil =>
    intro contents _ _ hex
    obtain ⟨fp, hfp, -⟩ := hex
    cases hfp
  | cons fp rest ih =>
    intro contents hsub hinv hex
    by_cases hu : fpNodeUuid (getRootUuid zf) fp ∈ contents.map Prod.fst
    · have hstep : apLoop cfg zf (apProvDataFps P zf) (getRootUuid zf)
          P.expected_files_root_only (fp :: rest) contents =
          apLoop cfg zf (apProvDataFps P zf) (getRootUuid zf)
            P.expected_files_root_only rest contents := by
        simp [apLoop, hu]
      rw [hstep]
      refine ih contents (fun p hp => hsub p (List.mem_cons_of_mem fp hp)) hinv ?_
      obtain ⟨w, hw, hwall⟩ := hex
      rcases List.mem_cons.mp hw with rfl | hw
      · exfalso
        obtain ⟨fp2, hfp2, hfp2u, l, hfp2ok⟩ := hinv _ hu
        have := hwall fp2 hfp2 hfp2u
        rw [hfp2ok] at this
        cases this
      · exact ⟨w, hw, hwall⟩
    · have hfpin := hsub fp (List.mem_cons_self fp rest)
      cases hchk : apNodeCheck zf (apProvDataFps P zf) (getRootUuid zf)
          P.expected_files_root_only fp with
      | error e =>
        obtain ⟨missing, vv, expF, hpv, hreg, hmiss, hne, herr⟩ :=
          apNodeCheck_error_char hwt (hver fp hfpin) hchk
        have hloop : apLoop cfg zf (apProvDataFps P zf) (getRootUuid zf)
            P.expected_files_root_only (fp :: rest) contents = .error e := by
          simp [apLoop, hu, hchk, bind, Except.bind]
        exact ⟨fp, hfpin, e, hchk, by rw [hchk, herr]; rfl, hloop⟩
      | ok l =>
        obtain ⟨vv, expF, hpv, hreg, hl, hlin⟩ :=
          apNodeCheck_ok_char hwt (hver fp hfpin) hchk
        have hnode : ∃ node, provNodeInit "archive_parser.ProvNode" cfg zf l = .ok node := by
          subst hl
          refine provNodeInit_ok_of_typed cfg zf (fpPrefix (getRootUuid zf) fp) vv expF _
            hwt hcfg ?_ (parseVersion_ok_readFile hpv) hreg ?_
          · intro q hq
            split at hq
            · obtain ⟨f, hf, rfl⟩ := List.mem_map.mp hq
              rw [hro f hf]
              apply pathName_join_of_single
              rfl
            · cases hq
          · intro e he
            have hmem : pathJoin (fpPrefix (getRootUuid zf) fp) e ∈ apProvDataFps P zf :=
              hlin _ (List.mem_append.mpr (Or.inr (List.mem_map.mpr ⟨e, he, rfl⟩)))
            rcases mem_apProvDataFps_cases hmem with h | ⟨f, hf, heq⟩
            · exact h
            · exfalso
              obtain ⟨-, -, -, hShape⟩ := registryAllNodes_facts hreg
              have hn2 : pathName (pathJoin [getRootUuid zf] f) = "checksums.md5" := by
                rw [hro f hf]
                apply pathName_join_of_single
                rfl
              have hn1 : pathName (pathJoin (fpPrefix (getRootUuid zf) fp) e) =
                  "checksums.md5" := by rw [heq, hn2]
              rcases hShape e he with hsh | hsh | hsh | hsh
              · rw [pathJoin, hsh, pathName_concat] at hn1
                exact absurd hn1 (by decide)
              · rw [pathJoin, hsh, pathName_concat] at hn1
                exact absurd hn1 (by decide)
              · rw [show pathName (pathJoin (fpPrefix (getRootUuid zf) fp) e) =
                  pathName (fpPrefix (getRootUuid zf) fp ++ ["action", "action.yaml"]) from
                    by rw [pathJoin, hsh]] at hn1
                rw [show pathName (fpPrefix (getRootUuid zf) fp ++ ["action", "action.yaml"]) =
                  "action.yaml" from pathName_join_action _] at hn1
                exact absurd hn1 (by decide)
              · rw [pathJoin, hsh, pathName_concat] at hn1
                exact absurd hn1 (by decide)
        obtain ⟨node, hnodeok⟩ := hnode
        have hstep : apLoop cfg zf (apProvDataFps P zf) (getRootUuid zf)
            P.expected_files_root_only (fp :: rest) contents =
            apLoop cfg zf (apProvDataFps P zf) (getRootUuid zf)
              P.expected_files_root_only rest
              (contents ++ [(fpNodeUuid (getRootUuid zf) fp, node)]) := by
          simp [apLoop, hu, hchk, hnodeok, bind, Except.bind]
        rw [hstep]
        refine ih _ (fun p hp => hsub p (List.mem_cons_of_mem fp hp)) ?_ ?_
        · intro u hu2
          rw [List.map_append] at hu2
          rcases List.mem_append.mp hu2 with hu2 | hu2
          · exact hinv u hu2
          · simp only [List.map_cons, List.map_nil, List.mem_singleton] at hu2
            subst hu2
            exact ⟨fp, hfpin, rfl, l, hchk⟩
        · obtain ⟨w, hw, hwall⟩ := hex
          rcases List.mem_cons.mp hw with rfl | hw
          · exfalso
            have := hwall w hfpin rfl
            rw [hchk] at this
            cases this
          · exact ⟨w, hw, hwall⟩

/-- Claim C4: for every archive in which some encountered node is missing a
per-node file required by its format version (the node's own VERSION being
readable, all payloads well-typed, study-metadata parsing off, root
metadata present), `archive_parser.ParserV1-V5.parse_prov` fails with the
`Malformed Archive` error: the result is an `Except.error` — so the
caller's variable is never bound to a partially-populated graph — whose
payload names each missing required file of the offending node, the node
id, and the archive root id, and whose rendered message contains all three. -/
theorem claim_C4 (P : ParserSpec) (validate : Validator) (cfg : PyConfig)
    (zf : Zipfile)
    (hro : ∀ f ∈ P.expected_files_root_only, f = "checksums.md5")
    (hwt : WellTypedZip zf)
    (hcfg : cfg.parse_study_metadata = false)
    (hroot : ([getRootUuid zf, "metadata.yaml"] : PyPath) ∈ zf.namelist)
    (hver : ∀ fp ∈ apProvDataFps P zf,
      (zf.readFile (fpPrefix (getRootUuid zf) fp ++ ["VERSION"])).isSome = true)
    (hmiss : ∃ fp ∈ apProvDataFps P zf,
      ∀ fp2 ∈ apProvDataFps P zf,
        fpNodeUuid (getRootUuid zf) fp2 = fpNodeUuid (getRootUuid zf) fp →
        isMalformedErr (apNodeCheck zf (apProvDataFps P zf) (getRootUuid zf)
          P.expected_files_root_only fp2) = true) :
    ∃ fp ∈ apProvDataFps P zf, ∃ missing : List (String × UUID),
      apParseProv P validate cfg zf =
        .error (.malformedArchive missing (getRootUuid zf) (some zf.filename)) ∧
      missing ≠ [] ∧
      (∀ pr ∈ missing, pr.snd = fpNodeUuid (getRootUuid zf) fp ∧
        ∃ vv expF,
          parseVersion zf (fpPrefix (getRootUuid zf) fp ++ ["VERSION"]) = .ok vv ∧
          registryAllNodes vv.fst = some expF ∧
          ∃ e ∈ expF, pathJoin (fpPrefix (getRootUuid zf) fp) e ∉ apProvDataFps P zf ∧
            pathName (pathJoin (fpPrefix (getRootUuid zf) fp) e) = pr.fst) ∧
      (∀ pr ∈ missing,
        StrOccurs (renderMalformed missing (getRootUuid zf) (some zf.filename)) pr.fst ∧
        StrOccurs (renderMalformed missing (getRootUuid zf) (some zf.filename)) pr.snd) ∧
      StrOccurs (renderMalformed missing (getRootUuid zf) (some zf.filename))
        (getRootUuid zf) := by
  have hver' : ∀ fp ∈ apProvDataFps P zf,
      ∃ c, zf.readFile (fpPrefix (getRootUuid zf) fp ++ ["VERSION"]) = some c :=
    fun fp hfp => Option.isSome_iff_exists.mp (hver fp hfp)
  obtain ⟨fpE, hfpE, err, hchkE, hismE, hloopE⟩ :=
    apLoop_error_of_broken P cfg zf hwt hcfg hro hver' (apProvDataFps P zf) []
      (fun p hp => hp) (by intro u hu; cases hu) hmiss
  obtain ⟨missingPaths, vv, expF, hpv, hreg, hmp, hne, herr⟩ :=
    apNodeCheck_error_char hwt (hver' fpE hfpE) hchkE
  have hparse : apParseProv P validate cfg zf = .error err := by
    unfold apParseProv
    obtain ⟨md, hmd⟩ := parseRootMd_ok hwt hroot
    simp only [hmd, hloopE, bind, Except.bind]
  refine ⟨fpE, hfpE,
    missingPaths.map (fun m => (pathName m, fpNodeUuid (getRootUuid zf) fpE)),
    by rw [hparse, herr], by simpa using hne, ?_, ?_, ?_⟩
  · intro pr hpr
    obtain ⟨m, hm, rfl⟩ := List.mem_map.mp hpr
    refine ⟨rfl, vv, expF, hpv, hreg, ?_⟩
    rw [hmp] at hm
    rw [List.mem_filter] at hm
    obtain ⟨hmapp, hmnot⟩ := hm
    have hmnot' : m ∉ apProvDataFps P zf := by simpa using hmnot
    rcases List.mem_append.mp hmapp with hm1 | hm1
    · exfalso
      by_cases hisr : fpIsRoot fpE = true
      · rw [if_pos hisr] at hm1
        obtain ⟨f, hf, rfl⟩ := List.mem_map.mp hm1
        have hufq : fpNodeUuid (getRootUuid zf) fpE = getRootUuid zf := by
          unfold fpNodeUuid
          rw [if_pos hisr]
        rw [hufq] at hmnot'
        exact hmnot' (rootOnly_mem_apProvDataFps hf)
      · rw [if_neg hisr] at hm1
        cases hm1
    · obtain ⟨e, he, rfl⟩ := List.mem_map.mp hm1
      exact ⟨e, he, hmnot', rfl⟩
  · intro pr hpr
    have hpair : (pr.fst, pr.snd) ∈ missingPaths.map
        (fun m => (pathName m, fpNodeUuid (getRootUuid zf) fpE)) := by
      rwa [show (pr.fst, pr.snd) = pr from rfl]
    exact renderMalformed_occurs_entry (getRootUuid zf) (some zf.filename) hpair
  · exact renderMalformed_occurs_root _ _ _

/-- Witness for claim C4 on the concrete archive `c4Zip`, whose ancestor
node `anc1` is missing its required `action/action.yaml`. -/
theorem claim_C4_witness :
    ((∀ f ∈ specV5.expected_files_root_only, f = "checksums.md5") ∧
     WellTypedZip c4Zip ∧
     cfgDefault.parse_study_metadata = false ∧
     ([getRootUuid c4Zip, "metadata.yaml"] : PyPath) ∈ c4Zip.namelist ∧
     (∀ fp ∈ apProvDataFps specV5 c4Zip,
       (c4Zip.readFile (fpPrefix (getRootUuid c4Zip) fp ++ ["VERSION"])).isSome = true) ∧
     (∃ fp ∈ apProvDataFps specV5 c4Zip,
       ∀ fp2 ∈ apProvDataFps specV5 c4Zip,
         fpNodeUuid (getRootUuid c4Zip) fp2 = fpNodeUuid (getRootUuid c4Zip) fp →
         isMalformedErr (apNodeCheck c4Zip (apProvDataFps specV5 c4Zip)
           (getRootUuid c4Zip) specV5.expected_files_root_only fp2) = true)) ∧
    (∃ fp ∈ apProvDataFps specV5 c4Zip, ∃ missing : List (String × UUID),
      apParseProv specV5 validV5Validator cfgDefault c4Zip =
        .error (.malformedArchive missing (getRootUuid c4Zip) (some c4Zip.filename)) ∧
      missing ≠ [] ∧
      (∀ pr ∈ missing, pr.snd = fpNodeUuid (getRootUuid c4Zip) fp ∧
        ∃ vv expF,
          parseVersion c4Zip (fpPrefix (getRootUuid c4Zip) fp ++ ["VERSION"]) = .ok vv ∧
          registryAllNodes vv.fst = some expF ∧
          ∃ e ∈ expF,
            pathJoin (fpPrefix (getRootUuid c4Zip) fp) e ∉ apProvDataFps specV5 c4Zip ∧
            pathName (pathJoin (fpPrefix (getRootUuid c4Zip) fp) e) = pr.fst) ∧
      (∀ pr ∈ missing,
        StrOccurs (renderMalformed missing (getRootUuid c4Zip) (some c4Zip.filename)) pr.fst ∧
        StrOccurs (renderMalformed missing (getRootUuid c4Zip) (some c4Zip.filename)) pr.snd) ∧
      StrOccurs (renderMalformed missing (getRootUuid c4Zip) (some c4Zip.filename))
        (getRootUuid c4Zip)) :=
  ⟨⟨by decide, by unfold WellTypedZip; decide, rfl, by decide, by decide, by decide⟩,
   claim_C4 specV5 validV5Validator cfgDefault c4Zip (by decide)
     (by unfold WellTypedZip; decide) rfl (by decide) (by decide) (by decide)⟩
